import Mathlib

/-!
# Verification of the WAV codec and sample converters

A shallow embedding of `src/CodecWAV.h` (the `WAVHeader` chunk scanner, the
`WAVDecoder`, the `WAVEncoder`) and `src/AudioTools/Converter.h` (the sample
converter family), together with theorems settling the specification claims.

Modelling conventions:
* bytes and machine integers are `Nat`/`Int` with explicit `% 2 ^ w` where the
  C code can wrap (`uint32_t`, `uint16_t`, `size_t`); `long` and `int64_t` are
  64-bit (LP64), so `uint32_t` values passed to them stay non-negative;
* a byte buffer is a `List Nat` (entries below 256 for buffers built here);
  `getChar` takes the buffer and the `len` argument of `begin` separately,
  exactly as the C object stores them;
* the C `float` arithmetic of the converters is modelled with exact rational
  arithmetic (`ℚ`); float-to-integer assignment truncates toward zero;
* an ideal byte sink (`Print`/`Stream`) accepts every byte and returns the
  count it was given, which is the setting the specification claims assume.
-/

namespace AudioTools

/-- The `WAVAudioInfo` record of `CodecWAV.h` (all integer fields as `Nat`). -/
structure WAVAudioInfo where
  format : Nat := 0
  sample_rate : Nat := 0
  bits_per_sample : Nat := 0
  channels : Nat := 0
  byte_rate : Nat := 0
  block_align : Nat := 0
  is_streamed : Bool := false
  is_valid : Bool := false
  data_length : Nat := 0
  file_size : Nat := 0
  deriving Repr, DecidableEq

/-- Mutable scanner state of `WAVHeader`: the byte cursor `data_pos`, the
recorded `sound_pos` of the `data` chunk, and the accumulated header info. -/
structure ScanState where
  data_pos : Nat
  sound_pos : Nat
  info : WAVAudioInfo
  deriving Repr, DecidableEq

/-- `(uint32_t) i` for a C `int` value `i` (two's complement reinterpretation). -/
def u32ofInt (i : Int) : Nat := (i % (2 ^ 32 : Int)).toNat

/-- One step of `read_tag`: `tag = (tag << 8) | getChar()` on a `uint32_t`. -/
def tagStep (t : Nat) (c : Int) : Nat := ((t <<< 8) % 2 ^ 32) ||| u32ofInt c

/-- One step of `read_int32`: `value |= getChar() << sh` on a `uint32_t`. -/
def orStep32 (v : Nat) (c : Int) (sh : Nat) : Nat := (v ||| u32ofInt (c * 2 ^ sh)) % 2 ^ 32

/-- One step of `read_int16`: `value |= getChar() << sh` on a `uint16_t`. -/
def orStep16 (v : Nat) (c : Int) (sh : Nat) : Nat := (v ||| u32ofInt (c * 2 ^ sh)) % 2 ^ 16

/-- `WAVHeader::getChar`: the byte at `data_pos` when `data_pos < len`
(advancing the cursor), otherwise the sentinel `-1` with no buffer access. -/
def getChar (buf : List Nat) (len pos : Nat) : Int × Nat :=
  if pos < len then ((buf.getD pos 0 : Int), pos + 1) else (-1, pos)

/-- `WAVHeader::read_tag`: four `getChar`s folded big-endian. -/
def read_tag (buf : List Nat) (len pos : Nat) : Nat × Nat :=
  let r0 := getChar buf len pos
  let r1 := getChar buf len r0.2
  let r2 := getChar buf len r1.2
  let r3 := getChar buf len r2.2
  (tagStep (tagStep (tagStep (tagStep 0 r0.1) r1.1) r2.1) r3.1, r3.2)

/-- `WAVHeader::read_int32`: four `getChar`s folded little-endian. -/
def read_int32 (buf : List Nat) (len pos : Nat) : Nat × Nat :=
  let r0 := getChar buf len pos
  let r1 := getChar buf len r0.2
  let r2 := getChar buf len r1.2
  let r3 := getChar buf len r2.2
  (orStep32 (orStep32 (orStep32 (orStep32 0 r0.1 0) r1.1 8) r2.1 16) r3.1 24, r3.2)

/-- `WAVHeader::read_int16`: two `getChar`s folded little-endian. -/
def read_int16 (buf : List Nat) (len pos : Nat) : Nat × Nat :=
  let r0 := getChar buf len pos
  let r1 := getChar buf len r0.2
  (orStep16 (orStep16 0 r0.1 0) r1.1 8, r1.2)

/-- `n` iterations of `getChar` (the loop body of `WAVHeader::skip`). -/
def skipChars (buf : List Nat) (len : Nat) : Nat → Nat → Nat
  | 0, pos => pos
  | n + 1, pos => skipChars buf len n (getChar buf len pos).2

/-- `(int) u` for a C `uint32_t` value `u` (two's complement reinterpretation),
used where the source passes a `uint32_t` length to `skip(int n)`. -/
def intOfU32 (u : Nat) : Int := if u < 2 ^ 31 then (u : Int) else (u : Int) - 2 ^ 32

/-- `WAVHeader::skip`: `n` calls of `getChar`; a non-positive `n` is a no-op. -/
def skip (buf : List Nat) (len : Nat) (n : Int) (pos : Nat) : Nat :=
  skipChars buf len n.toNat pos

/-- `WAVHeader::seek(off, SEEK_CUR)`: `data_pos += off` on a `size_t`
(all `begin` call sites pass non-negative offsets). -/
def seekCur (pos off : Nat) : Nat := (pos + off) % 2 ^ 64

/-- `WAVHeader::eof`: `data_pos >= len - 1`, with `len - 1` computed on a
`size_t` (so a zero `len` wraps to `2 ^ 64 - 1`). -/
def eofP (len pos : Nat) : Bool :=
  if len = 0 then decide (2 ^ 64 - 1 ≤ pos) else decide (len - 1 ≤ pos)

/-- The sub-chunk loop of `WAVHeader::begin` (`while (length >= 8) ...`).
Returns the state, the remaining `length` budget, and whether the `data`
branch took the early `return` out of `begin`. -/
def scanInner (buf : List Nat) (len : Nat) (st : ScanState) (length : Nat) :
    ScanState × Nat × Bool :=
  if _h8 : length < 8 then (st, length, false) else
  let rt := read_tag buf len st.data_pos
  if eofP len rt.2 then ({ st with data_pos := rt.2 }, length, false) else
  let rl := read_int32 buf len rt.2
  let len1 := length - 8
  if len1 < rl.1 then ({ st with data_pos := rl.2 }, len1, false) else
  if rt.1 = 0x666d7420 then
    if rl.1 < 16 then ({ st with data_pos := rl.2 }, len1, false) else
    let f := read_int16 buf len rl.2
    let c := read_int16 buf len f.2
    let s := read_int32 buf len c.2
    let br := read_int32 buf len s.2
    let ba := read_int16 buf len br.2
    let bp := read_int16 buf len ba.2
    let info1 := { st.info with
      format := f.1, channels := c.1, sample_rate := s.1,
      byte_rate := br.1, block_align := ba.1, bits_per_sample := bp.1 }
    if f.1 = 0xfffe then
      if rl.1 < 28 then
        ({ data_pos := bp.2, sound_pos := st.sound_pos, info := info1 }, len1, false)
      else
        let p8 := skipChars buf len 8 bp.2
        let f2 := read_int32 buf len p8
        let p9 := skip buf len (intOfU32 (rl.1 - 28)) f2.2
        scanInner buf len
          { data_pos := p9, sound_pos := st.sound_pos,
            info := { info1 with format := f2.1, is_valid := true } } (len1 - rl.1)
    else
      let p9 := skip buf len (intOfU32 (rl.1 - 16)) bp.2
      scanInner buf len
        { data_pos := p9, sound_pos := st.sound_pos,
          info := { info1 with is_valid := true } } (len1 - rl.1)
  else if rt.1 = 0x64617461 then
    let info1 := { st.info with data_length := rl.1 }
    if rl.1 = 0 ∨ st.info.is_streamed then
      ({ data_pos := rl.2, sound_pos := rl.2,
         info := { info1 with is_streamed := true } }, len1, true)
    else
      scanInner buf len
        { data_pos := seekCur rl.2 rl.1, sound_pos := rl.2, info := info1 } (len1 - rl.1)
  else
    scanInner buf len
      { st with data_pos := skip buf len (intOfU32 rl.1) rl.2 } (len1 - rl.1)
  termination_by length
  decreasing_by all_goals omega

/-- The outer chunk loop of `WAVHeader::begin` (`while (!eof()) ...`),
fuelled; each iteration advances the cursor, so `len + 1` fuel is ample. -/
def scanOuter (buf : List Nat) (len : Nat) : Nat → ScanState → ScanState
  | 0, st => st
  | fuel + 1, st =>
    if eofP len st.data_pos then st else
    let rt := read_tag buf len st.data_pos
    if eofP len rt.2 then { st with data_pos := rt.2 } else
    let rl := read_int32 buf len rt.2
    let streamedNow := rl.1 = 0 ∨ 0x7fff0000 ≤ rl.1
    let st1 := if streamedNow then { st with info := { st.info with is_streamed := true } } else st
    let length0 := if streamedNow then 2 ^ 32 - 1 else rl.1
    if rt.1 ≠ 0x52494646 ∨ length0 < 4 then
      scanOuter buf len fuel { st1 with data_pos := seekCur rl.2 length0 }
    else
      let rw := read_tag buf len rl.2
      let length1 := length0 - 4
      if rw.1 ≠ 0x57415645 then
        scanOuter buf len fuel { st1 with data_pos := seekCur rw.2 length1 }
      else
        let r := scanInner buf len { st1 with data_pos := rw.2 } length1
        if r.2.2 then r.1 else
        let st2 := if 0 < r.2.1 then { r.1 with data_pos := seekCur r.1.data_pos r.2.1 } else r.1
        scanOuter buf len fuel st2

/-- `WAVHeader::begin buffer len` on a freshly constructed `WAVHeader`
(`data_pos`, `sound_pos` and all of `headerInfo` zeroed). -/
def wavHeader_begin (buf : List Nat) (len : Nat) : ScanState :=
  scanOuter buf len (len + 1) { data_pos := 0, sound_pos := 0, info := {} }

/-- `WAVHeader::soundData`: when a `data` chunk was located, the offset of the
payload inside the buffer and its length `max((long)(len - sound_pos), 0)`
(computed on `Int`, so a `sound_pos` beyond `len` clamps to zero). -/
def soundData (len : Nat) (st : ScanState) : Option (Nat × Nat) :=
  if 0 < st.sound_pos then
    some (st.sound_pos, (max ((len : Int) - (st.sound_pos : Int)) 0).toNat)
  else none

/-- Little-endian byte pair of a 16-bit field. -/
def u16bytes (n : Nat) : List Nat := [n % 256, n / 256 % 256]

/-- Little-endian byte quadruple of a 32-bit field. -/
def u32bytes (n : Nat) : List Nat :=
  [n % 256, n / 256 % 256, n / 65536 % 256, n / 16777216 % 256]

/-- A canonical RIFF/WAVE byte buffer: `RIFF` header with declared size
`riffLen`, a 16-byte `fmt ` chunk, a `data` chunk of declared size `dataLen`,
followed by `payload`. -/
def mkWav (fmt ch sr br ba bps riffLen dataLen : Nat) (payload : List Nat) : List Nat :=
  82 :: 73 :: 70 :: 70 ::
  riffLen % 256 :: riffLen / 256 % 256 :: riffLen / 65536 % 256 :: riffLen / 16777216 % 256 ::
  87 :: 65 :: 86 :: 69 ::
  102 :: 109 :: 116 :: 32 ::
  16 :: 0 :: 0 :: 0 ::
  fmt % 256 :: fmt / 256 % 256 ::
  ch % 256 :: ch / 256 % 256 ::
  sr % 256 :: sr / 256 % 256 :: sr / 65536 % 256 :: sr / 16777216 % 256 ::
  br % 256 :: br / 256 % 256 :: br / 65536 % 256 :: br / 16777216 % 256 ::
  ba % 256 :: ba / 256 % 256 ::
  bps % 256 :: bps / 256 % 256 ::
  100 :: 97 :: 116 :: 97 ::
  dataLen % 256 :: dataLen / 256 % 256 :: dataLen / 65536 % 256 :: dataLen / 16777216 % 256 ::
  payload

/-! ## Evaluation lemmas for the cursor reads -/

theorem lor_low (a b k : Nat) (h : b < 2 ^ k) : (a * 2 ^ k) ||| b = a * 2 ^ k + b := by
  rw [Nat.mul_comm a (2 ^ k)]
  exact (Nat.mul_add_lt_is_or h a).symm

theorem lor_low2 (a b k : Nat) (h : a < 2 ^ k) : a ||| (b * 2 ^ k) = a + b * 2 ^ k := by
  rw [Nat.lor_comm, lor_low b a k h, Nat.add_comm]

theorem u32ofInt_nat (n : Nat) (h : n < 2 ^ 32) : u32ofInt (n : Int) = n := by
  unfold u32ofInt
  rw [Int.emod_eq_of_lt (by positivity) (by exact_mod_cast h)]
  simp

theorem u32ofInt_mul (b sh : Nat) (h : b * 2 ^ sh < 2 ^ 32) :
    u32ofInt ((b : Int) * 2 ^ sh) = b * 2 ^ sh := by
  have e : ((b : Int) * 2 ^ sh) = ((b * 2 ^ sh : Nat) : Int) := by push_cast; ring
  rw [e, u32ofInt_nat _ h]

theorem getChar_lt (buf : List Nat) (len pos : Nat) (h : pos < len) :
    getChar buf len pos = ((buf.getD pos 0 : Int), pos + 1) := by
  simp [getChar, h]

theorem tagStep_byte (t b : Nat) (ht : t < 2 ^ 24) (hb : b < 256) :
    tagStep t (b : Int) = t * 256 + b := by
  unfold tagStep
  rw [u32ofInt_nat b (by omega), Nat.shiftLeft_eq,
      Nat.mod_eq_of_lt (by norm_num at ht ⊢; omega),
      lor_low t b 8 (by norm_num; omega)]
  norm_num

theorem orStep32_eval (v b sh : Nat) (hv : v < 2 ^ sh) (hbs : b * 2 ^ sh < 2 ^ 32)
    (hvb : v + b * 2 ^ sh < 2 ^ 32) :
    orStep32 v (b : Int) sh = v + b * 2 ^ sh := by
  unfold orStep32
  rw [u32ofInt_mul b sh hbs, lor_low2 v b sh hv, Nat.mod_eq_of_lt hvb]

theorem orStep16_eval (v b sh : Nat) (hv : v < 2 ^ sh) (hbs : b * 2 ^ sh < 2 ^ 32)
    (hvb : v + b * 2 ^ sh < 2 ^ 16) :
    orStep16 v (b : Int) sh = v + b * 2 ^ sh := by
  unfold orStep16
  rw [u32ofInt_mul b sh hbs, lor_low2 v b sh hv, Nat.mod_eq_of_lt hvb]

theorem read_tag_eval (buf : List Nat) (len pos b0 b1 b2 b3 : Nat)
    (hlen : pos + 4 ≤ len)
    (g0 : buf.getD pos 0 = b0) (g1 : buf.getD (pos + 1) 0 = b1)
    (g2 : buf.getD (pos + 2) 0 = b2) (g3 : buf.getD (pos + 3) 0 = b3)
    (h0 : b0 < 256) (h1 : b1 < 256) (h2 : b2 < 256) (h3 : b3 < 256) :
    read_tag buf len pos = (b0 * 16777216 + b1 * 65536 + b2 * 256 + b3, pos + 4) := by
  have hc0 : getChar buf len pos = ((b0 : Int), pos + 1) := by
    rw [getChar_lt buf len pos (by omega), g0]
  have hc1 : getChar buf len (pos + 1) = ((b1 : Int), pos + 2) := by
    rw [getChar_lt buf len (pos + 1) (by omega), g1]
  have hc2 : getChar buf len (pos + 2) = ((b2 : Int), pos + 3) := by
    rw [getChar_lt buf len (pos + 2) (by omega), g2]
  have hc3 : getChar buf len (pos + 3) = ((b3 : Int), pos + 4) := by
    rw [getChar_lt buf len (pos + 3) (by omega), g3]
  simp only [read_tag, hc0, hc1, hc2, hc3]
  rw [tagStep_byte 0 b0 (by norm_num) h0]
  rw [tagStep_byte _ b1 (by omega) h1]
  rw [tagStep_byte _ b2 (by omega) h2]
  rw [tagStep_byte _ b3 (by omega) h3]
  simp only [Prod.mk.injEq]
  exact ⟨by omega, trivial⟩

theorem read_int32_eval (buf : List Nat) (len pos b0 b1 b2 b3 : Nat)
    (hlen : pos + 4 ≤ len)
    (g0 : buf.getD pos 0 = b0) (g1 : buf.getD (pos + 1) 0 = b1)
    (g2 : buf.getD (pos + 2) 0 = b2) (g3 : buf.getD (pos + 3) 0 = b3)
    (h0 : b0 < 256) (h1 : b1 < 256) (h2 : b2 < 256) (h3 : b3 < 256) :
    read_int32 buf len pos = (b0 + b1 * 256 + b2 * 65536 + b3 * 16777216, pos + 4) := by
  have hc0 : getChar buf len pos = ((b0 : Int), pos + 1) := by
    rw [getChar_lt buf len pos (by omega), g0]
  have hc1 : getChar buf len (pos + 1) = ((b1 : Int), pos + 2) := by
    rw [getChar_lt buf len (pos + 1) (by omega), g1]
  have hc2 : getChar buf len (pos + 2) = ((b2 : Int), pos + 3) := by
    rw [getChar_lt buf len (pos + 2) (by omega), g2]
  have hc3 : getChar buf len (pos + 3) = ((b3 : Int), pos + 4) := by
    rw [getChar_lt buf len (pos + 3) (by omega), g3]
  simp only [read_int32, hc0, hc1, hc2, hc3]
  rw [orStep32_eval 0 b0 0 (by norm_num) (by norm_num; omega) (by norm_num; omega)]
  rw [orStep32_eval _ b1 8 (by norm_num; omega) (by norm_num; omega) (by norm_num; omega)]
  rw [orStep32_eval _ b2 16 (by norm_num; omega) (by norm_num; omega) (by norm_num; omega)]
  rw [orStep32_eval _ b3 24 (by norm_num; omega) (by norm_num; omega) (by norm_num; omega)]
  simp only [Prod.mk.injEq]
  exact ⟨by omega, trivial⟩

theorem read_int16_eval (buf : List Nat) (len pos b0 b1 : Nat)
    (hlen : pos + 2 ≤ len)
    (g0 : buf.getD pos 0 = b0) (g1 : buf.getD (pos + 1) 0 = b1)
    (h0 : b0 < 256) (h1 : b1 < 256) :
    read_int16 buf len pos = (b0 + b1 * 256, pos + 2) := by
  have hc0 : getChar buf len pos = ((b0 : Int), pos + 1) := by
    rw [getChar_lt buf len pos (by omega), g0]
  have hc1 : getChar buf len (pos + 1) = ((b1 : Int), pos + 2) := by
    rw [getChar_lt buf len (pos + 1) (by omega), g1]
  simp only [read_int16, hc0, hc1]
  rw [orStep16_eval 0 b0 0 (by norm_num) (by norm_num; omega) (by norm_num; omega)]
  rw [orStep16_eval _ b1 8 (by norm_num; omega) (by norm_num; omega) (by norm_num; omega)]
  simp only [Prod.mk.injEq]
  exact ⟨by omega, trivial⟩

/-! ## Symbolic runs of the chunk scanner -/

theorem eofP_false (len pos : Nat) (h : pos + 1 < len) : eofP len pos = false := by
  unfold eofP
  rw [if_neg (show ¬ len = 0 by omega)]
  simp
  omega

theorem eofP_neg (len pos : Nat) (h : pos + 1 < len) : ¬ eofP len pos = true := by
  rw [eofP_false len pos h]; simp

theorem eofP_true (len pos : Nat) (h0 : len ≠ 0) (h : len - 1 ≤ pos) : eofP len pos = true := by
  unfold eofP
  rw [if_neg h0]
  simp
  omega

theorem scanOuter_eof (buf : List Nat) (len fuel : Nat) (st : ScanState)
    (h : eofP len st.data_pos = true) : scanOuter buf len fuel st = st := by
  cases fuel with
  | zero => rfl
  | succ n => simp [scanOuter, h]

theorem scanInner_stop (buf : List Nat) (len L : Nat) (st : ScanState) (h : L < 8) :
    scanInner buf len st L = (st, L, false) := by
  rw [scanInner.eq_def, dif_pos h]

theorem scanInner_step_fmt (buf : List Nat) (len L sp : Nat) (info0 : WAVAudioInfo)
    (fmt ch sr br ba bps : Nat)
    (hL8 : ¬ L < 8) (h16 : ¬ L - 8 < 16)
    (heof : ¬ eofP len 16 = true)
    (ht : read_tag buf len 12 = (0x666d7420, 16))
    (hl : read_int32 buf len 16 = (16, 20))
    (hf : read_int16 buf len 20 = (fmt, 22))
    (hc : read_int16 buf len 22 = (ch, 24))
    (hs : read_int32 buf len 24 = (sr, 28))
    (hb : read_int32 buf len 28 = (br, 32))
    (ha : read_int16 buf len 32 = (ba, 34))
    (hp : read_int16 buf len 34 = (bps, 36))
    (hfmt : fmt ≠ 0xfffe) :
    scanInner buf len ⟨12, sp, info0⟩ L =
      scanInner buf len
        ⟨36, sp,
          { info0 with format := fmt, channels := ch, sample_rate := sr, byte_rate := br,
                       block_align := ba, bits_per_sample := bps, is_valid := true }⟩
        (L - 8 - 16) := by
  conv_lhs => rw [scanInner.eq_def]
  rw [dif_neg hL8]
  simp only [ht, hl, hf, hc, hs, hb, ha, hp]
  rw [if_neg heof, if_neg h16, if_pos (show (True : Prop) from trivial),
      if_neg (show ¬ (16 : Nat) < 16 by omega), if_neg hfmt]
  rfl

theorem scanInner_step_data_seek (buf : List Nat) (len L sp dl : Nat) (info0 : WAVAudioInfo)
    (hL8 : ¬ L < 8) (hdl : ¬ L - 8 < dl)
    (heof : ¬ eofP len 40 = true)
    (ht : read_tag buf len 36 = (0x64617461, 40))
    (hl : read_int32 buf len 40 = (dl, 44))
    (hstr : info0.is_streamed = false)
    (hdl0 : dl ≠ 0)
    (hwrap : 44 + dl < 2 ^ 64) :
    scanInner buf len ⟨36, sp, info0⟩ L =
      scanInner buf len ⟨44 + dl, 44, { info0 with data_length := dl }⟩ (L - 8 - dl) := by
  conv_lhs => rw [scanInner.eq_def]
  rw [dif_neg hL8]
  simp only [ht, hl]
  rw [if_neg heof, if_neg hdl, if_neg (show ¬ (1684108385 : Nat) = 1718449184 by omega),
      if_pos (show (True : Prop) from trivial),
      if_neg (show ¬ (dl = 0 ∨ info0.is_streamed = true) by simp [hstr, hdl0])]
  rw [show seekCur 44 dl = 44 + dl from by
        simp only [seekCur]; exact Nat.mod_eq_of_lt hwrap]

theorem scanInner_step_data_streamed (buf : List Nat) (len L sp dl : Nat) (info0 : WAVAudioInfo)
    (hL8 : ¬ L < 8) (hdl : ¬ L - 8 < dl)
    (heof : ¬ eofP len 40 = true)
    (ht : read_tag buf len 36 = (0x64617461, 40))
    (hl : read_int32 buf len 40 = (dl, 44))
    (hstr : info0.is_streamed = true) :
    scanInner buf len ⟨36, sp, info0⟩ L =
      (⟨44, 44, { info0 with data_length := dl, is_streamed := true }⟩, L - 8, true) := by
  conv_lhs => rw [scanInner.eq_def]
  rw [dif_neg hL8]
  simp only [ht, hl]
  rw [if_neg heof, if_neg hdl, if_neg (show ¬ (1684108385 : Nat) = 1718449184 by omega),
      if_pos (show (True : Prop) from trivial),
      if_pos (show dl = 0 ∨ info0.is_streamed = true from Or.inr hstr)]


theorem scanA (fmt ch sr br ba bps dl : Nat) (payload : List Nat)
    (hfmt16 : fmt < 2 ^ 16) (hfmtne : fmt ≠ 0xfffe)
    (hch : ch < 2 ^ 16) (hsr : sr < 2 ^ 32) (hbr : br < 2 ^ 32)
    (hba : ba < 2 ^ 16) (hbps : bps < 2 ^ 16)
    (hdl0 : 0 < dl) (hdlm : 36 + dl < 0x7fff0000)
    (hp : payload.length ≤ dl) :
    wavHeader_begin (mkWav fmt ch sr br ba bps (36 + dl) dl payload) (44 + payload.length) =
      ⟨44 + dl, 44,
        { format := fmt, sample_rate := sr, bits_per_sample := bps, channels := ch,
          byte_rate := br, block_align := ba, is_streamed := false, is_valid := true,
          data_length := dl, file_size := 0 }⟩ := by
  have t0 : read_tag (mkWav fmt ch sr br ba bps (36 + dl) dl payload) (44 + payload.length) 0
      = (0x52494646, 4) := by
    rw [read_tag_eval (mkWav fmt ch sr br ba bps (36 + dl) dl payload) (44 + payload.length) 0 82 73 70 70 (by omega) rfl rfl rfl rfl
        (by norm_num) (by norm_num) (by norm_num) (by norm_num)]
  have r4 : read_int32 (mkWav fmt ch sr br ba bps (36 + dl) dl payload) (44 + payload.length) 4
      = (36 + dl, 8) := by
    rw [read_int32_eval (mkWav fmt ch sr br ba bps (36 + dl) dl payload) (44 + payload.length) 4 ((36 + dl) % 256) ((36 + dl) / 256 % 256)
        ((36 + dl) / 65536 % 256) ((36 + dl) / 16777216 % 256) (by omega)
        rfl rfl rfl rfl (by omega) (by omega) (by omega) (by omega)]
    simp only [Prod.mk.injEq]
    exact ⟨by omega, by norm_num⟩
  have t8 : read_tag (mkWav fmt ch sr br ba bps (36 + dl) dl payload) (44 + payload.length) 8
      = (0x57415645, 12) := by
    rw [read_tag_eval (mkWav fmt ch sr br ba bps (36 + dl) dl payload) (44 + payload.length) 8 87 65 86 69 (by omega) rfl rfl rfl rfl
        (by norm_num) (by norm_num) (by norm_num) (by norm_num)]
  have t12 : read_tag (mkWav fmt ch sr br ba bps (36 + dl) dl payload) (44 + payload.length) 12
      = (0x666d7420, 16) := by
    rw [read_tag_eval (mkWav fmt ch sr br ba bps (36 + dl) dl payload) (44 + payload.length) 12 102 109 116 32 (by omega) rfl rfl rfl rfl
        (by norm_num) (by norm_num) (by norm_num) (by norm_num)]
  have r16 : read_int32 (mkWav fmt ch sr br ba bps (36 + dl) dl payload) (44 + payload.length) 16
      = (16, 20) := by
    rw [read_int32_eval (mkWav fmt ch sr br ba bps (36 + dl) dl payload) (44 + payload.length) 16 16 0 0 0 (by omega) rfl rfl rfl rfl
        (by norm_num) (by norm_num) (by norm_num) (by norm_num)]
  have f20 : read_int16 (mkWav fmt ch sr br ba bps (36 + dl) dl payload) (44 + payload.length) 20
      = (fmt, 22) := by
    rw [read_int16_eval (mkWav fmt ch sr br ba bps (36 + dl) dl payload) (44 + payload.length) 20 (fmt % 256) (fmt / 256 % 256) (by omega) rfl rfl
        (by omega) (by omega)]
    simp only [Prod.mk.injEq]
    exact ⟨by omega, by norm_num⟩
  have c22 : read_int16 (mkWav fmt ch sr br ba bps (36 + dl) dl payload) (44 + payload.length) 22
      = (ch, 24) := by
    rw [read_int16_eval (mkWav fmt ch sr br ba bps (36 + dl) dl payload) (44 + payload.length) 22 (ch % 256) (ch / 256 % 256) (by omega) rfl rfl
        (by omega) (by omega)]
    simp only [Prod.mk.injEq]
    exact ⟨by omega, by norm_num⟩
  have s24 : read_int32 (mkWav fmt ch sr br ba bps (36 + dl) dl payload) (44 + payload.length) 24
      = (sr, 28) := by
    rw [read_int32_eval (mkWav fmt ch sr br ba bps (36 + dl) dl payload) (44 + payload.length) 24 (sr % 256) (sr / 256 % 256) (sr / 65536 % 256)
        (sr / 16777216 % 256) (by omega) rfl rfl rfl rfl
        (by omega) (by omega) (by omega) (by omega)]
    simp only [Prod.mk.injEq]
    exact ⟨by omega, by norm_num⟩
  have b28 : read_int32 (mkWav fmt ch sr br ba bps (36 + dl) dl payload) (44 + payload.length) 28
      = (br, 32) := by
    rw [read_int32_eval (mkWav fmt ch sr br ba bps (36 + dl) dl payload) (44 + payload.length) 28 (br % 256) (br / 256 % 256) (br / 65536 % 256)
        (br / 16777216 % 256) (by omega) rfl rfl rfl rfl
        (by omega) (by omega) (by omega) (by omega)]
    simp only [Prod.mk.injEq]
    exact ⟨by omega, by norm_num⟩
  have a32 : read_int16 (mkWav fmt ch sr br ba bps (36 + dl) dl payload) (44 + payload.length) 32
      = (ba, 34) := by
    rw [read_int16_eval (mkWav fmt ch sr br ba bps (36 + dl) dl payload) (44 + payload.length) 32 (ba % 256) (ba / 256 % 256) (by omega) rfl rfl
        (by omega) (by omega)]
    simp only [Prod.mk.injEq]
    exact ⟨by omega, by norm_num⟩
  have p34 : read_int16 (mkWav fmt ch sr br ba bps (36 + dl) dl payload) (44 + payload.length) 34
      = (bps, 36) := by
    rw [read_int16_eval (mkWav fmt ch sr br ba bps (36 + dl) dl payload) (44 + payload.length) 34 (bps % 256) (bps / 256 % 256) (by omega) rfl rfl
        (by omega) (by omega)]
    simp only [Prod.mk.injEq]
    exact ⟨by omega, by norm_num⟩
  have t36 : read_tag (mkWav fmt ch sr br ba bps (36 + dl) dl payload) (44 + payload.length) 36
      = (0x64617461, 40) := by
    rw [read_tag_eval (mkWav fmt ch sr br ba bps (36 + dl) dl payload) (44 + payload.length) 36 100 97 116 97 (by omega) rfl rfl rfl rfl
        (by norm_num) (by norm_num) (by norm_num) (by norm_num)]
  have r40 : read_int32 (mkWav fmt ch sr br ba bps (36 + dl) dl payload) (44 + payload.length) 40
      = (dl, 44) := by
    rw [read_int32_eval (mkWav fmt ch sr br ba bps (36 + dl) dl payload) (44 + payload.length) 40 (dl % 256) (dl / 256 % 256) (dl / 65536 % 256)
        (dl / 16777216 % 256) (by omega) rfl rfl rfl rfl
        (by omega) (by omega) (by omega) (by omega)]
    simp only [Prod.mk.injEq]
    exact ⟨by omega, by norm_num⟩
  unfold wavHeader_begin
  simp only [scanOuter]
  rw [if_neg (eofP_neg _ _ (by omega))]
  simp only [t0, r4, t8]
  rw [if_neg (eofP_neg _ _ (by omega))]
  rw [if_neg (show ¬ (36 + dl = 0 ∨ 0x7fff0000 ≤ 36 + dl) by omega),
      if_neg (show ¬ (36 + dl = 0 ∨ 0x7fff0000 ≤ 36 + dl) by omega)]
  rw [if_neg (show ¬ ((0x52494646 : Nat) ≠ 0x52494646 ∨ 36 + dl < 4) by omega)]
  rw [if_neg (show ¬ (0x57415645 : Nat) ≠ 0x57415645 by omega)]
  rw [scanInner_step_fmt _ _ _ _ _ fmt ch sr br ba bps (by omega) (by omega)
      (eofP_neg _ _ (by omega)) t12 r16 f20 c22 s24 b28 a32 p34 hfmtne]
  rw [scanInner_step_data_seek _ _ _ _ dl _ (by omega) (by omega)
      (eofP_neg _ _ (by omega)) t36 r40 rfl (by omega) (by omega)]
  rw [show 36 + dl - 4 - 8 - 16 - 8 - dl = 0 by omega]
  rw [scanInner_stop _ _ _ _ (by omega)]
  rw [if_neg (show ¬ (false : Bool) = true by simp)]
  rw [if_neg (show ¬ (0 : Nat) < 0 by omega)]
  rw [scanOuter_eof _ _ _ _ (eofP_true _ _ (by omega) (by simp; omega))]

theorem scanB (fmt ch sr br ba bps rl dl : Nat)
    (hfmt16 : fmt < 2 ^ 16) (hfmtne : fmt ≠ 0xfffe)
    (hch : ch < 2 ^ 16) (hsr : sr < 2 ^ 32) (hbr : br < 2 ^ 32)
    (hba : ba < 2 ^ 16) (hbps : bps < 2 ^ 16)
    (hrl : rl = 0 ∨ 0x7fff0000 ≤ rl) (hrl32 : rl < 2 ^ 32)
    (hdl32 : dl < 2 ^ 32) (hdlcap : dl ≤ 2 ^ 32 - 37) :
    wavHeader_begin (mkWav fmt ch sr br ba bps rl dl []) 44 =
      ⟨44, 44,
        { format := fmt, sample_rate := sr, bits_per_sample := bps, channels := ch,
          byte_rate := br, block_align := ba, is_streamed := true, is_valid := true,
          data_length := dl, file_size := 0 }⟩ := by
  have t0 : read_tag (mkWav fmt ch sr br ba bps rl dl []) 44 0 = (0x52494646, 4) := by
    rw [read_tag_eval (mkWav fmt ch sr br ba bps rl dl []) 44 0 82 73 70 70 (by omega)
        rfl rfl rfl rfl (by norm_num) (by norm_num) (by norm_num) (by norm_num)]
  have r4 : read_int32 (mkWav fmt ch sr br ba bps rl dl []) 44 4 = (rl, 8) := by
    rw [read_int32_eval (mkWav fmt ch sr br ba bps rl dl []) 44 4 (rl % 256) (rl / 256 % 256)
        (rl / 65536 % 256) (rl / 16777216 % 256) (by omega)
        rfl rfl rfl rfl (by omega) (by omega) (by omega) (by omega)]
    simp only [Prod.mk.injEq]
    exact ⟨by omega, by norm_num⟩
  have t8 : read_tag (mkWav fmt ch sr br ba bps rl dl []) 44 8 = (0x57415645, 12) := by
    rw [read_tag_eval (mkWav fmt ch sr br ba bps rl dl []) 44 8 87 65 86 69 (by omega)
        rfl rfl rfl rfl (by norm_num) (by norm_num) (by norm_num) (by norm_num)]
  have t12 : read_tag (mkWav fmt ch sr br ba bps rl dl []) 44 12 = (0x666d7420, 16) := by
    rw [read_tag_eval (mkWav fmt ch sr br ba bps rl dl []) 44 12 102 109 116 32 (by omega)
        rfl rfl rfl rfl (by norm_num) (by norm_num) (by norm_num) (by norm_num)]
  have r16 : read_int32 (mkWav fmt ch sr br ba bps rl dl []) 44 16 = (16, 20) := by
    rw [read_int32_eval (mkWav fmt ch sr br ba bps rl dl []) 44 16 16 0 0 0 (by omega)
        rfl rfl rfl rfl (by norm_num) (by norm_num) (by norm_num) (by norm_num)]
  have f20 : read_int16 (mkWav fmt ch sr br ba bps rl dl []) 44 20 = (fmt, 22) := by
    rw [read_int16_eval (mkWav fmt ch sr br ba bps rl dl []) 44 20 (fmt % 256)
        (fmt / 256 % 256) (by omega) rfl rfl (by omega) (by omega)]
    simp only [Prod.mk.injEq]
    exact ⟨by omega, by norm_num⟩
  have c22 : read_int16 (mkWav fmt ch sr br ba bps rl dl []) 44 22 = (ch, 24) := by
    rw [read_int16_eval (mkWav fmt ch sr br ba bps rl dl []) 44 22 (ch % 256)
        (ch / 256 % 256) (by omega) rfl rfl (by omega) (by omega)]
    simp only [Prod.mk.injEq]
    exact ⟨by omega, by norm_num⟩
  have s24 : read_int32 (mkWav fmt ch sr br ba bps rl dl []) 44 24 = (sr, 28) := by
    rw [read_int32_eval (mkWav fmt ch sr br ba bps rl dl []) 44 24 (sr % 256) (sr / 256 % 256)
        (sr / 65536 % 256) (sr / 16777216 % 256) (by omega)
        rfl rfl rfl rfl (by omega) (by omega) (by omega) (by omega)]
    simp only [Prod.mk.injEq]
    exact ⟨by omega, by norm_num⟩
  have b28 : read_int32 (mkWav fmt ch sr br ba bps rl dl []) 44 28 = (br, 32) := by
    rw [read_int32_eval (mkWav fmt ch sr br ba bps rl dl []) 44 28 (br % 256) (br / 256 % 256)
        (br / 65536 % 256) (br / 16777216 % 256) (by omega)
        rfl rfl rfl rfl (by omega) (by omega) (by omega) (by omega)]
    simp only [Prod.mk.injEq]
    exact ⟨by omega, by norm_num⟩
  have a32 : read_int16 (mkWav fmt ch sr br ba bps rl dl []) 44 32 = (ba, 34) := by
    rw [read_int16_eval (mkWav fmt ch sr br ba bps rl dl []) 44 32 (ba % 256)
        (ba / 256 % 256) (by omega) rfl rfl (by omega) (by omega)]
    simp only [Prod.mk.injEq]
    exact ⟨by omega, by norm_num⟩
  have p34 : read_int16 (mkWav fmt ch sr br ba bps rl dl []) 44 34 = (bps, 36) := by
    rw [read_int16_eval (mkWav fmt ch sr br ba bps rl dl []) 44 34 (bps % 256)
        (bps / 256 % 256) (by omega) rfl rfl (by omega) (by omega)]
    simp only [Prod.mk.injEq]
    exact ⟨by omega, by norm_num⟩
  have t36 : read_tag (mkWav fmt ch sr br ba bps rl dl []) 44 36 = (0x64617461, 40) := by
    rw [read_tag_eval (mkWav fmt ch sr br ba bps rl dl []) 44 36 100 97 116 97 (by omega)
        rfl rfl rfl rfl (by norm_num) (by norm_num) (by norm_num) (by norm_num)]
  have r40 : read_int32 (mkWav fmt ch sr br ba bps rl dl []) 44 40 = (dl, 44) := by
    rw [read_int32_eval (mkWav fmt ch sr br ba bps rl dl []) 44 40 (dl % 256) (dl / 256 % 256)
        (dl / 65536 % 256) (dl / 16777216 % 256) (by omega)
        rfl rfl rfl rfl (by omega) (by omega) (by omega) (by omega)]
    simp only [Prod.mk.injEq]
    exact ⟨by omega, by norm_num⟩
  unfold wavHeader_begin
  rw [scanOuter]
  rw [if_neg (eofP_neg 44 0 (by omega))]
  simp only [t0, r4, t8]
  rw [if_neg (eofP_neg 44 4 (by omega))]
  rw [if_pos hrl, if_pos hrl]
  rw [if_neg (show ¬ ((0x52494646 : Nat) ≠ 0x52494646 ∨ 2 ^ 32 - 1 < 4) by omega)]
  rw [if_neg (show ¬ (0x57415645 : Nat) ≠ 0x57415645 by omega)]
  rw [scanInner_step_fmt _ _ _ _ _ fmt ch sr br ba bps (by omega) (by omega)
      (eofP_neg _ _ (by omega)) t12 r16 f20 c22 s24 b28 a32 p34 hfmtne]
  rw [scanInner_step_data_streamed _ _ _ _ dl _ (by omega) (by omega)
      (eofP_neg _ _ (by omega)) t36 r40 rfl]
  rw [if_pos (show (true : Bool) = true from rfl)]


/-! ## Claim C1 -/

/-- C1: for every well-formed WAVE header buffer (canonical RIFF/WAVE layout,
`fmt ` chunk of 16 bytes, finite nonzero `data` chunk of declared size `dl`,
payload no longer than `dl`), `WAVHeader::begin` sets `is_valid = true` and
reports exactly the sample rate, channel count and bits per sample encoded in
the `fmt ` chunk, and `soundData` then yields the payload slice at offset 44
whose length is the declared `data_size` clamped to the buffer bounds. -/
theorem C1_chunk_scanner_reports_format (fmt ch sr br ba bps dl : Nat) (payload : List Nat)
    (hfmt16 : fmt < 2 ^ 16) (hfmtne : fmt ≠ 0xfffe)
    (hch : ch < 2 ^ 16) (hsr : sr < 2 ^ 32) (hbr : br < 2 ^ 32)
    (hba : ba < 2 ^ 16) (hbps : bps < 2 ^ 16)
    (hdl0 : 0 < dl) (hdlm : 36 + dl < 0x7fff0000)
    (hp : payload.length ≤ dl) :
    (wavHeader_begin (mkWav fmt ch sr br ba bps (36 + dl) dl payload)
        (44 + payload.length)).info.is_valid = true ∧
    (wavHeader_begin (mkWav fmt ch sr br ba bps (36 + dl) dl payload)
        (44 + payload.length)).info.sample_rate = sr ∧
    (wavHeader_begin (mkWav fmt ch sr br ba bps (36 + dl) dl payload)
        (44 + payload.length)).info.channels = ch ∧
    (wavHeader_begin (mkWav fmt ch sr br ba bps (36 + dl) dl payload)
        (44 + payload.length)).info.bits_per_sample = bps ∧
    soundData (44 + payload.length)
        (wavHeader_begin (mkWav fmt ch sr br ba bps (36 + dl) dl payload)
          (44 + payload.length)) =
      some (44, min dl (44 + payload.length - 44)) := by
  rw [scanA fmt ch sr br ba bps dl payload hfmt16 hfmtne hch hsr hbr hba hbps hdl0 hdlm hp]
  refine ⟨rfl, rfl, rfl, rfl, ?_⟩
  simp only [soundData, if_pos (show (0 : Nat) < 44 by omega)]
  simp only [Option.some.injEq, Prod.mk.injEq]
  refine ⟨trivial, ?_⟩
  push_cast
  omega

/-- Witness for C1 at a concrete instance (PCM, stereo, 44100 Hz, 16 bit,
4 payload bytes). -/
theorem C1_chunk_scanner_reports_format_witness :
    ((1 : Nat) < 2 ^ 16 ∧ (1 : Nat) ≠ 0xfffe ∧ (2 : Nat) < 2 ^ 16 ∧
      (44100 : Nat) < 2 ^ 32 ∧ (176400 : Nat) < 2 ^ 32 ∧ (4 : Nat) < 2 ^ 16 ∧
      (16 : Nat) < 2 ^ 16 ∧ (0 : Nat) < 4 ∧ 36 + 4 < 0x7fff0000 ∧
      ([9, 9, 9, 9] : List Nat).length ≤ 4) ∧
    ((wavHeader_begin (mkWav 1 2 44100 176400 4 16 (36 + 4) 4 [9, 9, 9, 9])
        (44 + ([9, 9, 9, 9] : List Nat).length)).info.is_valid = true ∧
    (wavHeader_begin (mkWav 1 2 44100 176400 4 16 (36 + 4) 4 [9, 9, 9, 9])
        (44 + ([9, 9, 9, 9] : List Nat).length)).info.sample_rate = 44100 ∧
    (wavHeader_begin (mkWav 1 2 44100 176400 4 16 (36 + 4) 4 [9, 9, 9, 9])
        (44 + ([9, 9, 9, 9] : List Nat).length)).info.channels = 2 ∧
    (wavHeader_begin (mkWav 1 2 44100 176400 4 16 (36 + 4) 4 [9, 9, 9, 9])
        (44 + ([9, 9, 9, 9] : List Nat).length)).info.bits_per_sample = 16 ∧
    soundData (44 + ([9, 9, 9, 9] : List Nat).length)
        (wavHeader_begin (mkWav 1 2 44100 176400 4 16 (36 + 4) 4 [9, 9, 9, 9])
          (44 + ([9, 9, 9, 9] : List Nat).length)) =
      some (44, min 4 (44 + ([9, 9, 9, 9] : List Nat).length - 44))) :=
  ⟨⟨by norm_num, by norm_num, by norm_num, by norm_num, by norm_num, by norm_num,
    by norm_num, by norm_num, by norm_num, by norm_num⟩,
   C1_chunk_scanner_reports_format 1 2 44100 176400 4 16 4 [9, 9, 9, 9]
    (by norm_num) (by norm_num) (by norm_num) (by norm_num) (by norm_num)
    (by norm_num) (by norm_num) (by norm_num) (by norm_num) (by norm_num)⟩


/-! ## WAVEncoder -/

/-- `WAVEncoder` session state: the stored `audioInfo`, the remaining byte
budget `size_limit` (`int64_t`), the `header_written` and `is_open` flags, and
whether an output stream is attached (`stream_ptr != nullptr`). -/
structure EncState where
  audioInfo : WAVAudioInfo
  size_limit : Int
  header_written : Bool
  is_open : Bool
  hasStream : Bool
  deriving Repr, DecidableEq

/-- `WAVEncoder::defaultConfig` with the three `DEFAULT_*` constants (defined
outside this translation unit) taken as parameters; `byte_rate` and
`block_align` are left uninitialized by the source and modelled as 0 (they are
overwritten by `begin` before any use). -/
def defaultConfigWith (sr bps ch : Nat) : WAVAudioInfo :=
  { format := 1, sample_rate := sr, bits_per_sample := bps, channels := ch,
    byte_rate := 0, block_align := 0, is_streamed := false, is_valid := true,
    data_length := 0x7fff0000, file_size := 0x7fff0000 + 36 }

/-- `WAVEncoder::begin(ai)`: recompute `byte_rate` and `block_align`, then
either switch to streaming mode (`data_length` 0, absent, or at least
`0x7fff0000`) or arm the finite byte budget. The C `size_limit` stays
uninitialized in streaming mode and is never read there; it is modelled as 0. -/
def wavEncoder_begin (ai : WAVAudioInfo) (hasStream : Bool) : EncState :=
  let ai1 := { ai with
    byte_rate := ai.sample_rate * ai.bits_per_sample * ai.channels,
    block_align := ai.bits_per_sample / 8 * ai.channels }
  if ai1.is_streamed ∨ ai1.data_length = 0 ∨ 0x7fff0000 ≤ ai1.data_length then
    { audioInfo := { ai1 with is_streamed := true, data_length := 2 ^ 32 - 1 },
      size_limit := 0, header_written := false, is_open := true, hasStream := hasStream }
  else
    { audioInfo := ai1, size_limit := (ai1.data_length : Int),
      header_written := false, is_open := true, hasStream := hasStream }

/-- The header bytes emitted by `writeRiffHeader`, `writeFMT` and
`writeDataHeader` (little-endian host, as on every supported target):
`RIFF (file_size - 8) WAVE fmt 16 <fields> data (file_size - 44)`, both
subtractions on `uint32_t`. -/
def encHeaderBytes (ai : WAVAudioInfo) : List Nat :=
  [82, 73, 70, 70] ++ u32bytes (((2 ^ 32 - 8) + ai.file_size) % 2 ^ 32) ++ [87, 65, 86, 69] ++
  [102, 109, 116, 32] ++ u32bytes 16 ++
  u16bytes ai.format ++ u16bytes ai.channels ++ u32bytes ai.sample_rate ++
  u32bytes (ai.sample_rate * ai.bits_per_sample * ai.channels / 8) ++
  u16bytes (ai.channels * ai.bits_per_sample / 8) ++ u16bytes ai.bits_per_sample ++
  [100, 97, 116, 97] ++ u32bytes (((2 ^ 32 - 44) + ai.file_size) % 2 ^ 32)

/-- The header-emission step at the top of `WAVEncoder::write`: on the first
write, emit the header bytes and mark `header_written` (`writeDataHeader`
also decrements `audioInfo.file_size` by 44 on `uint32_t`). -/
def encHeaderStep (st : EncState) : EncState × List Nat :=
  if st.header_written then (st, [])
  else
    ({ st with
        header_written := true,
        audioInfo := { st.audioInfo with
          file_size := ((2 ^ 32 - 44) + st.audioInfo.file_size) % 2 ^ 32 } },
      encHeaderBytes st.audioInfo)

/-- `WAVEncoder::write` against an ideal sink. Returns the reported byte count,
the successor state, and the bytes that reached the sink. Calling a closed
encoder executes `10 / 0` in the source (fatal); that path is modelled as an
error. -/
def wavEncoder_write (st : EncState) (input : List Nat) :
    Except String (Nat × EncState × List Nat) :=
  if st.is_open = false then .error "WAVEncoder is not open" else
  if st.hasStream = false then .ok (0, st, []) else
  let s := encHeaderStep st
  if s.1.audioInfo.is_streamed then .ok (input.length, s.1, s.2 ++ input)
  else if 0 < s.1.size_limit then
    let ws := min input.length s.1.size_limit.toNat
    let limit2 := s.1.size_limit - (ws : Int)
    if limit2 ≤ 0 then
      .ok (ws, { s.1 with size_limit := limit2, is_open := false }, s.2 ++ input.take ws)
    else
      .ok (ws, { s.1 with size_limit := limit2 }, s.2 ++ input.take ws)
  else .ok (0, s.1, s.2)

/-- Folding `WAVEncoder::write` over a list of input buffers, recording each
call's outcome and concatenating everything that reached the sink. A faulting
call leaves the state unchanged (in C it would abort the program). -/
def wavEncoder_run (st : EncState) : List (List Nat) →
    EncState × List (Except String Nat) × List Nat
  | [] => (st, [], [])
  | b :: bs =>
    match wavEncoder_write st b with
    | .ok (r, st2, out) =>
      let rest := wavEncoder_run st2 bs
      (rest.1, .ok r :: rest.2.1, out ++ rest.2.2)
    | .error e =>
      let rest := wavEncoder_run st bs
      (rest.1, .error e :: rest.2.1, rest.2.2)

/-- Sum of the byte counts of the successful writes of a run. -/
def okSum : List (Except String Nat) → Nat
  | [] => 0
  | .ok r :: rs => r + okSum rs
  | .error _ :: rs => okSum rs

/-! ## Claim C2 -/

/-- `WAVEncoder::begin` on the default configuration with the given sample
rate, bit depth and channel count: the declared `data_length` `0x7fff0000`
switches the session to streaming mode. -/
theorem encBegin_default (sr ch bps : Nat) :
    wavEncoder_begin (defaultConfigWith sr bps ch) true =
      { audioInfo :=
          { format := 1, sample_rate := sr, bits_per_sample := bps, channels := ch,
            byte_rate := sr * bps * ch, block_align := bps / 8 * ch,
            is_streamed := true, is_valid := true,
            data_length := 2 ^ 32 - 1, file_size := 2147418148 },
        size_limit := 0, header_written := false, is_open := true, hasStream := true } := by
  unfold wavEncoder_begin defaultConfigWith
  rw [if_pos (by norm_num)]

set_option maxRecDepth 4000 in
/-- C2: for every format descriptor with PCM format code and given sample
rate, channel count and bits per sample (the other fields as produced by
`defaultConfig`), encoding (`begin` plus a first `write`, which emits the
44 header bytes before the payload) and then decoding those header bytes
with `WAVHeader::begin` yields a descriptor whose sample rate, channel
count, bits per sample and format code are identical to the originals. -/
theorem C2_encode_decode_roundtrip (sr ch bps : Nat) (payload : List Nat)
    (hch : ch < 2 ^ 16) (hsr : sr < 2 ^ 32) (hbps : bps < 2 ^ 16)
    (hbr : sr * bps * ch / 8 < 2 ^ 32) (hba : ch * bps / 8 < 2 ^ 16) :
    (∃ st2, wavEncoder_write (wavEncoder_begin (defaultConfigWith sr bps ch) true) payload =
      .ok (payload.length, st2,
        encHeaderBytes ((wavEncoder_begin (defaultConfigWith sr bps ch) true).audioInfo)
          ++ payload)) ∧
    (wavHeader_begin (encHeaderBytes
        ((wavEncoder_begin (defaultConfigWith sr bps ch) true).audioInfo)) 44).info.format
      = (defaultConfigWith sr bps ch).format ∧
    (wavHeader_begin (encHeaderBytes
        ((wavEncoder_begin (defaultConfigWith sr bps ch) true).audioInfo)) 44).info.sample_rate
      = (defaultConfigWith sr bps ch).sample_rate ∧
    (wavHeader_begin (encHeaderBytes
        ((wavEncoder_begin (defaultConfigWith sr bps ch) true).audioInfo)) 44).info.channels
      = (defaultConfigWith sr bps ch).channels ∧
    (wavHeader_begin (encHeaderBytes
        ((wavEncoder_begin (defaultConfigWith sr bps ch) true).audioInfo)) 44).info.bits_per_sample
      = (defaultConfigWith sr bps ch).bits_per_sample := by
  rw [encBegin_default]
  have hdrEq : encHeaderBytes
      { format := 1, sample_rate := sr, bits_per_sample := bps, channels := ch,
        byte_rate := sr * bps * ch, block_align := bps / 8 * ch,
        is_streamed := true, is_valid := true, data_length := 2 ^ 32 - 1,
        file_size := 2147418148 } =
      mkWav 1 ch sr (sr * bps * ch / 8) (ch * bps / 8) bps 2147418140 2147418104 [] := by
    simp only [encHeaderBytes, mkWav, u16bytes, u32bytes]
    norm_num
  have hdec : wavHeader_begin (encHeaderBytes
      { format := 1, sample_rate := sr, bits_per_sample := bps, channels := ch,
        byte_rate := sr * bps * ch, block_align := bps / 8 * ch,
        is_streamed := true, is_valid := true, data_length := 2 ^ 32 - 1,
        file_size := 2147418148 }) 44 =
      ⟨44, 44,
        { format := 1, sample_rate := sr, bits_per_sample := bps, channels := ch,
          byte_rate := sr * bps * ch / 8,
          block_align := ch * bps / 8, is_streamed := true, is_valid := true,
          data_length := 2147418104, file_size := 0 }⟩ := by
    rw [hdrEq]
    rw [scanB 1 ch sr (sr * bps * ch / 8) (ch * bps / 8) bps 2147418140 2147418104
        (by norm_num) (by norm_num) hch hsr hbr hba hbps (Or.inr (by norm_num))
        (by norm_num) (by norm_num) (by norm_num)]
  refine ⟨?_, ?_, ?_, ?_, ?_⟩
  · exact ⟨_, rfl⟩
  all_goals rw [hdec]
  all_goals rfl


/-- C2: encoding a PCM format descriptor (the default configuration carrying
the given sample rate, channel count and bits per sample) and then decoding
the emitted 44-byte header yields a descriptor with identical sample rate,
channel count, bits per sample and format code; the hypotheses keep the
derived `byte_rate` and `block_align` inside their C integer widths. -/
theorem C2_encode_decode_roundtrip_witness :
    ((2 : Nat) < 2 ^ 16 ∧ (44100 : Nat) < 2 ^ 32 ∧ (16 : Nat) < 2 ^ 16 ∧
      44100 * 16 * 2 / 8 < 2 ^ 32 ∧ 2 * 16 / 8 < 2 ^ 16) ∧
    ((∃ st2, wavEncoder_write (wavEncoder_begin (defaultConfigWith 44100 16 2) true) [5, 6] =
      .ok (([5, 6] : List Nat).length, st2,
        encHeaderBytes ((wavEncoder_begin (defaultConfigWith 44100 16 2) true).audioInfo)
          ++ [5, 6])) ∧
    (wavHeader_begin (encHeaderBytes
        ((wavEncoder_begin (defaultConfigWith 44100 16 2) true).audioInfo)) 44).info.format
      = (defaultConfigWith 44100 16 2).format ∧
    (wavHeader_begin (encHeaderBytes
        ((wavEncoder_begin (defaultConfigWith 44100 16 2) true).audioInfo)) 44).info.sample_rate
      = (defaultConfigWith 44100 16 2).sample_rate ∧
    (wavHeader_begin (encHeaderBytes
        ((wavEncoder_begin (defaultConfigWith 44100 16 2) true).audioInfo)) 44).info.channels
      = (defaultConfigWith 44100 16 2).channels ∧
    (wavHeader_begin (encHeaderBytes
        ((wavEncoder_begin (defaultConfigWith 44100 16 2) true).audioInfo)) 44).info.bits_per_sample
      = (defaultConfigWith 44100 16 2).bits_per_sample) :=
  ⟨⟨by norm_num, by norm_num, by norm_num, by norm_num, by norm_num⟩,
   C2_encode_decode_roundtrip 44100 2 16 [5, 6]
    (by norm_num) (by norm_num) (by norm_num) (by norm_num) (by norm_num)⟩

/-! ## Claim C3: the bounded encoder -/

theorem encHeaderStep_size_limit (st : EncState) :
    (encHeaderStep st).1.size_limit = st.size_limit := by
  rw [encHeaderStep]
  cases hw : st.header_written
  · rw [if_neg (by simp)]
  · rw [if_pos rfl]

theorem encHeaderStep_is_open (st : EncState) :
    (encHeaderStep st).1.is_open = st.is_open := by
  rw [encHeaderStep]
  cases hw : st.header_written
  · rw [if_neg (by simp)]
  · rw [if_pos rfl]

theorem encHeaderStep_hasStream (st : EncState) :
    (encHeaderStep st).1.hasStream = st.hasStream := by
  rw [encHeaderStep]
  cases hw : st.header_written
  · rw [if_neg (by simp)]
  · rw [if_pos rfl]

theorem encHeaderStep_is_streamed (st : EncState) :
    (encHeaderStep st).1.audioInfo.is_streamed = st.audioInfo.is_streamed := by
  rw [encHeaderStep]
  cases hw : st.header_written
  · rw [if_neg (by simp)]
  · rw [if_pos rfl]

theorem wavEncoder_run_closed (st : EncState) (bs : List (List Nat))
    (h : st.is_open = false) :
    wavEncoder_run st bs = (st, bs.map fun _ => .error "WAVEncoder is not open", []) := by
  induction bs with
  | nil => rfl
  | cons b bs ih =>
    have hw : wavEncoder_write st b = .error "WAVEncoder is not open" := by
      rw [wavEncoder_write, if_pos h]
    simp only [wavEncoder_run, hw, ih, List.map_cons]

theorem wavEncoder_write_bounded (st : EncState) (b : List Nat) (L : Nat)
    (hopen : st.is_open = true) (hstream : st.hasStream = true)
    (hnstr : st.audioInfo.is_streamed = false)
    (hlim : st.size_limit = (L : Int)) (hL : 0 < L) :
    ∃ st2 out, wavEncoder_write st b = .ok (min b.length L, st2, out) ∧
      st2.size_limit = ((L : Int) - (min b.length L : Int)) ∧
      st2.is_open = decide (b.length < L) ∧
      st2.hasStream = true ∧ st2.audioInfo.is_streamed = false := by
  have h1 := encHeaderStep_size_limit st
  have h2 := encHeaderStep_is_open st
  have h3 := encHeaderStep_hasStream st
  have h4 := encHeaderStep_is_streamed st
  rw [wavEncoder_write]
  rw [if_neg (by simp [hopen]), if_neg (by simp [hstream])]
  rw [if_neg (by simp [h4, hnstr])]
  rw [if_pos (show (0 : Int) < (encHeaderStep st).1.size_limit by
        rw [h1, hlim]; exact_mod_cast hL)]
  rw [h1, hlim, Int.toNat_natCast]
  rcases Nat.lt_or_ge b.length L with hbl | hbl
  · rw [if_neg (by push_cast; omega)]
    refine ⟨_, _, rfl, by simp [h1, hlim], ?_, by simp [h3, hstream], by simp [h4, hnstr]⟩
    simp [h2, hopen, hbl]
  · rw [if_pos (by push_cast; omega)]
    refine ⟨_, _, rfl, by simp [h1, hlim], ?_, by simp [h3, hstream], by simp [h4, hnstr]⟩
    simp [show ¬ b.length < L by omega]


theorem okSum_errors (bs : List (List Nat)) (e : String) :
    okSum (bs.map fun _ => Except.error e) = 0 := by
  induction bs with
  | nil => rfl
  | cons b bs ih => simp only [List.map_cons, okSum, ih]

theorem getD_map_const (l : List (List Nat)) (e : Except String Nat) (j : Nat)
    (d : Except String Nat) (h : j < l.length) : (l.map fun _ => e).getD j d = e := by
  induction l generalizing j with
  | nil => simp at h
  | cons a l ih =>
    cases j with
    | zero => rfl
    | succ j => exact ih j (by simpa using h)

theorem wavEncoder_run_bounded (bs : List (List Nat)) (st : EncState) (L : Nat)
    (hopen : st.is_open = true) (hstream : st.hasStream = true)
    (hnstr : st.audioInfo.is_streamed = false)
    (hlim : st.size_limit = (L : Int)) (hL : 0 < L) :
    okSum (wavEncoder_run st bs).2.1 = min L ((bs.map List.length).sum) ∧
    ((wavEncoder_run st bs).1.is_open = true ↔ (bs.map List.length).sum < L) ∧
    (∀ j, j < bs.length → L ≤ ((bs.take j).map List.length).sum →
      (wavEncoder_run st bs).2.1.getD j (.ok 0) = .error "WAVEncoder is not open") := by
  induction bs generalizing st L with
  | nil =>
    refine ⟨by simp [wavEncoder_run, okSum], ?_, ?_⟩
    · simp only [wavEncoder_run, List.map_nil, List.sum_nil]
      rw [hopen]
      simp
      omega
    · intro j hj
      simp at hj
  | cons b bs ih =>
    obtain ⟨st2, out, hw, hlim2, hopen2, hstream2, hnstr2⟩ :=
      wavEncoder_write_bounded st b L hopen hstream hnstr hlim hL
    rcases Nat.lt_or_ge b.length L with hbl | hbl
    · have hopen2a : st2.is_open = true := by rw [hopen2]; simp [hbl]
      have hlim2a : st2.size_limit = ((L - b.length : Nat) : Int) := by
        rw [hlim2]; omega
      obtain ⟨ihA, ihB, ihC⟩ := ih st2 (L - b.length) hopen2a hstream2 hnstr2 hlim2a (by omega)
      refine ⟨?_, ?_, ?_⟩
      · simp only [wavEncoder_run, hw, okSum]
        rw [ihA]
        simp only [List.map_cons, List.sum_cons]
        omega
      · simp only [wavEncoder_run, hw]
        rw [ihB]
        simp only [List.map_cons, List.sum_cons]
        omega
      · intro j hj hsum
        cases j with
        | zero =>
          simp only [List.take_zero, List.map_nil, List.sum_nil] at hsum
          omega
        | succ j =>
          simp only [List.take_succ_cons, List.map_cons, List.sum_cons] at hsum
          simp only [wavEncoder_run, hw]
          simp only [List.getD_cons_succ]
          exact ihC j (by simpa using hj) (by omega)
    · have hopen2b : st2.is_open = false := by
        rw [hopen2]
        simp [Nat.not_lt.mpr hbl]
      have hclosed := wavEncoder_run_closed st2 bs hopen2b
      refine ⟨?_, ?_, ?_⟩
      · simp only [wavEncoder_run, hw, okSum, hclosed]
        rw [okSum_errors]
        simp only [List.map_cons, List.sum_cons]
        omega
      · simp only [wavEncoder_run, hw, hclosed]
        rw [hopen2b]
        simp only [List.map_cons, List.sum_cons]
        constructor
        · intro hfalse
          exact absurd hfalse (by simp)
        · intro hlt
          omega
      · intro j hj hsum
        cases j with
        | zero =>
          simp only [List.take_zero, List.map_nil, List.sum_nil] at hsum
          omega
        | succ j =>
          simp only [wavEncoder_run, hw, hclosed]
          simp only [List.getD_cons_succ]
          exact getD_map_const bs _ j _ (by simpa using hj)


/-- C3 (amended): for every encoder session begun in bounded mode with finite
nonzero `data_length` `d` below `0x7fff0000` and every sequence of payload
writes totalling more than `d` bytes, exactly `d` payload bytes reach the sink
(the sum of the successful write results), the session is open after a prefix
of writes exactly while the bytes written so far stay below `d` (that is, it
closes exactly when the budget reaches zero), and every write issued once the
budget is exhausted faults with the fatal "not open" error of the source
(`10 / 0`) instead of returning 0. -/
theorem C3_bounded_encoder_budget (ai : WAVAudioInfo) (d : Nat) (bs : List (List Nat))
    (hstr : ai.is_streamed = false) (hdl : ai.data_length = d)
    (hd0 : 0 < d) (hdm : d < 0x7fff0000)
    (htot : d < (bs.map List.length).sum) :
    okSum (wavEncoder_run (wavEncoder_begin ai true) bs).2.1 = d ∧
    (∀ k, ((wavEncoder_run (wavEncoder_begin ai true) (bs.take k)).1.is_open = true ↔
      ((bs.take k).map List.length).sum < d)) ∧
    (∀ j, j < bs.length → d ≤ ((bs.take j).map List.length).sum →
      (wavEncoder_run (wavEncoder_begin ai true) bs).2.1.getD j (.ok 0) =
        .error "WAVEncoder is not open") := by
  have hcond : ¬ (({ ai with
      byte_rate := ai.sample_rate * ai.bits_per_sample * ai.channels,
      block_align := ai.bits_per_sample / 8 * ai.channels } : WAVAudioInfo).is_streamed = true ∨
      ({ ai with
        byte_rate := ai.sample_rate * ai.bits_per_sample * ai.channels,
        block_align := ai.bits_per_sample / 8 * ai.channels } : WAVAudioInfo).data_length = 0 ∨
      0x7fff0000 ≤ ({ ai with
        byte_rate := ai.sample_rate * ai.bits_per_sample * ai.channels,
        block_align := ai.bits_per_sample / 8 * ai.channels } : WAVAudioInfo).data_length) := by
    simp [hstr, hdl]
    omega
  have hopen0 : (wavEncoder_begin ai true).is_open = true := by
    rw [wavEncoder_begin, if_neg hcond]
  have hstream0 : (wavEncoder_begin ai true).hasStream = true := by
    rw [wavEncoder_begin, if_neg hcond]
  have hnstr0 : (wavEncoder_begin ai true).audioInfo.is_streamed = false := by
    rw [wavEncoder_begin, if_neg hcond]
    exact hstr
  have hlim0 : (wavEncoder_begin ai true).size_limit = (d : Int) := by
    rw [wavEncoder_begin, if_neg hcond]
    show ((ai.data_length : Nat) : Int) = ((d : Nat) : Int)
    rw [hdl]
  refine ⟨?_, ?_, ?_⟩
  · exact ((wavEncoder_run_bounded bs (wavEncoder_begin ai true) d
      hopen0 hstream0 hnstr0 hlim0 hd0).1).trans (by omega)
  · intro k
    exact (wavEncoder_run_bounded (bs.take k) (wavEncoder_begin ai true) d
      hopen0 hstream0 hnstr0 hlim0 hd0).2.1
  · exact (wavEncoder_run_bounded bs (wavEncoder_begin ai true) d
      hopen0 hstream0 hnstr0 hlim0 hd0).2.2


/-- C3 counterexample to the claim as stated: with `data_length = 2` and
writes `[9, 9, 9]` then `[7]`, the second write does not return 0 - it takes
the fatal "not open" path (`10 / 0` in the source, modelled as an error). -/
theorem C3_claim_counterexample :
    (wavEncoder_run (wavEncoder_begin
        { format := 1, sample_rate := 8000, bits_per_sample := 16, channels := 2,
          byte_rate := 0, block_align := 0, is_streamed := false, is_valid := true,
          data_length := 2, file_size := 100 } true) [[9, 9, 9], [7]]).2.1.getD 1 (.ok 0) =
      .error "WAVEncoder is not open" ∧
    ¬ ((wavEncoder_run (wavEncoder_begin
        { format := 1, sample_rate := 8000, bits_per_sample := 16, channels := 2,
          byte_rate := 0, block_align := 0, is_streamed := false, is_valid := true,
          data_length := 2, file_size := 100 } true) [[9, 9, 9], [7]]).2.1.getD 1 (.ok 0) =
      .ok 0) := by
  refine ⟨rfl, ?_⟩
  intro h
  rw [show (wavEncoder_run (wavEncoder_begin
        { format := 1, sample_rate := 8000, bits_per_sample := 16, channels := 2,
          byte_rate := 0, block_align := 0, is_streamed := false, is_valid := true,
          data_length := 2, file_size := 100 } true) [[9, 9, 9], [7]]).2.1.getD 1 (.ok 0) =
      Except.error "WAVEncoder is not open" from rfl] at h
  exact Except.noConfusion h


/-- Witness for C3 at `data_length = 2` and writes `[[9, 9, 9], [7]]`. -/
theorem C3_bounded_encoder_budget_witness :
    (({ format := 1, sample_rate := 8000, bits_per_sample := 16, channels := 2,
        byte_rate := 0, block_align := 0, is_streamed := false, is_valid := true,
        data_length := 2, file_size := 100 } : WAVAudioInfo).is_streamed = false ∧
     ({ format := 1, sample_rate := 8000, bits_per_sample := 16, channels := 2,
        byte_rate := 0, block_align := 0, is_streamed := false, is_valid := true,
        data_length := 2, file_size := 100 } : WAVAudioInfo).data_length = 2 ∧
     (0 : Nat) < 2 ∧ (2 : Nat) < 0x7fff0000 ∧
     2 < (([[9, 9, 9], [7]] : List (List Nat)).map List.length).sum) ∧
    okSum (wavEncoder_run (wavEncoder_begin
        { format := 1, sample_rate := 8000, bits_per_sample := 16, channels := 2,
          byte_rate := 0, block_align := 0, is_streamed := false, is_valid := true,
          data_length := 2, file_size := 100 } true) [[9, 9, 9], [7]]).2.1 = 2 ∧
    ((wavEncoder_run (wavEncoder_begin
        { format := 1, sample_rate := 8000, bits_per_sample := 16, channels := 2,
          byte_rate := 0, block_align := 0, is_streamed := false, is_valid := true,
          data_length := 2, file_size := 100 } true)
        (([[9, 9, 9], [7]] : List (List Nat)).take 1)).1.is_open = true ↔
      ((([[9, 9, 9], [7]] : List (List Nat)).take 1).map List.length).sum < 2) ∧
    (wavEncoder_run (wavEncoder_begin
        { format := 1, sample_rate := 8000, bits_per_sample := 16, channels := 2,
          byte_rate := 0, block_align := 0, is_streamed := false, is_valid := true,
          data_length := 2, file_size := 100 } true) [[9, 9, 9], [7]]).2.1.getD 1 (.ok 0) =
      .error "WAVEncoder is not open" :=
  ⟨⟨rfl, rfl, by norm_num, by norm_num, by decide⟩,
   (C3_bounded_encoder_budget _ 2 [[9, 9, 9], [7]] rfl rfl (by norm_num) (by norm_num)
     (by decide)).1,
   (C3_bounded_encoder_budget _ 2 [[9, 9, 9], [7]] rfl rfl (by norm_num) (by norm_num)
     (by decide)).2.1 1,
   (C3_bounded_encoder_budget _ 2 [[9, 9, 9], [7]] rfl rfl (by norm_num) (by norm_num)
     (by decide)).2.2 1 (by norm_num) (by decide)⟩


/-! ## WAVDecoder -/

/-- The `AudioBaseInfo` record handed to the `AudioBaseInfoDependent` listener. -/
structure AudioBaseInfo where
  sample_rate : Nat
  channels : Nat
  bits_per_sample : Nat
  deriving Repr, DecidableEq

/-- Mutable flag state of `WAVDecoder` (`isFirst`, `isValid`, `active`); the
`WAVHeader` member is rebuilt from the first buffer, so it carries no state
across calls that matters here. -/
structure DecState where
  isFirst : Bool
  isValid : Bool
  active : Bool
  deriving Repr, DecidableEq

/-- A freshly constructed decoder after `WAVDecoder::begin` (`isFirst = true`,
`active = true`; the member initialiser leaves `isValid = true`). -/
def wavDecoder_begin : DecState := ⟨true, true, true⟩

/-- `WAVDecoder::write`. The listener models `audioBaseInfoSupport`: `none`
when absent, `some validate` otherwise (`setAudioInfo` is a pure notification).
Returns the `size_t` result, the new flag state and the bytes forwarded to the
output stream (an ideal sink, so `out->write` returns the length given). -/
def wavDecoder_write (listener : Option (AudioBaseInfo → Bool)) (st : DecState)
    (input : List Nat) : Nat × DecState × List Nat :=
  if st.active then
    if st.isFirst then
      let h := wavHeader_begin input input.length
      match soundData input.length h with
      | some (sp, slen) =>
        let st1 : DecState :=
          { isFirst := false, isValid := h.info.is_valid, active := st.active }
        if h.info.format ≠ 1 then
          ((0 : Nat), { st1 with isValid := false }, ([] : List Nat))
        else
          match listener with
          | none => (0, { st1 with isValid := true }, [])
          | some validate =>
            let bi : AudioBaseInfo :=
              { sample_rate := h.info.sample_rate, channels := h.info.channels,
                bits_per_sample := h.info.bits_per_sample }
            if validate bi then
              (slen, { st1 with isValid := true }, (input.drop sp).take slen)
            else (0, { st1 with isValid := false }, [])
      | none => (0, st, [])
    else if st.isValid then (input.length, st, input)
    else (0, st, [])
  else (0, st, [])

/-- A sequence of `WAVDecoder::write` calls: final state, the per-call
results, and everything forwarded to the sink, concatenated. -/
def wavDecoder_run (listener : Option (AudioBaseInfo → Bool)) :
    DecState → List (List Nat) → DecState × List Nat × List Nat
  | st, [] => (st, [], [])
  | st, b :: bs =>
    let r := wavDecoder_write listener st b
    let rest := wavDecoder_run listener r.2.1 bs
    (rest.1, r.1 :: rest.2.1, r.2.2 ++ rest.2.2)

theorem mkWav_length (fmt ch sr br ba bps rl dl : Nat) (payload : List Nat) :
    (mkWav fmt ch sr br ba bps rl dl payload).length = 44 + payload.length := by
  rw [mkWav]
  simp only [List.length_cons]
  omega

/-- Once `isFirst = false` and `isValid = false`, every write returns 0 and
forwards nothing, whatever the listener. -/
theorem wavDecoder_run_invalid (listener : Option (AudioBaseInfo → Bool))
    (st : DecState) (bs : List (List Nat)) (hact : st.active = true)
    (hf : st.isFirst = false) (hv : st.isValid = false) :
    wavDecoder_run listener st bs = (st, bs.map (fun _ => 0), []) := by
  induction bs with
  | nil => rfl
  | cons b bs ih =>
    have hw : wavDecoder_write listener st b = (0, st, []) := by
      rw [wavDecoder_write, if_pos hact, if_neg (by simp [hf]), if_neg (by simp [hv])]
    simp only [wavDecoder_run, hw, ih, List.map_cons, List.nil_append]

/-- Once `isFirst = false` and `isValid = true`, every write forwards its
input verbatim, whatever the listener. -/
theorem wavDecoder_run_valid (listener : Option (AudioBaseInfo → Bool))
    (st : DecState) (bs : List (List Nat)) (hact : st.active = true)
    (hf : st.isFirst = false) (hv : st.isValid = true) :
    wavDecoder_run listener st bs = (st, bs.map List.length, bs.flatten) := by
  induction bs with
  | nil => rfl
  | cons b bs ih =>
    have hw : wavDecoder_write listener st b = (b.length, st, b) := by
      rw [wavDecoder_write, if_pos hact, if_neg (by simp [hf]), if_pos hv]
    simp only [wavDecoder_run, hw, ih, List.map_cons, List.flatten_cons]

/-- The first write on a canonical header buffer whose `fmt ` chunk declares a
non-PCM format code: zero bytes reported, nothing forwarded, and the state is
left permanently invalid. -/
theorem decWrite_first_nonpcm (listener : Option (AudioBaseInfo → Bool))
    (fmt ch sr br ba bps dl : Nat) (payload : List Nat)
    (hfmt1 : fmt ≠ 1) (hfmt16 : fmt < 2 ^ 16) (hfmtne : fmt ≠ 0xfffe)
    (hch : ch < 2 ^ 16) (hsr : sr < 2 ^ 32) (hbr : br < 2 ^ 32)
    (hba : ba < 2 ^ 16) (hbps : bps < 2 ^ 16)
    (hdl0 : 0 < dl) (hdlm : 36 + dl < 0x7fff0000)
    (hp : payload.length ≤ dl) :
    wavDecoder_write listener wavDecoder_begin
        (mkWav fmt ch sr br ba bps (36 + dl) dl payload) =
      (0, ⟨false, false, true⟩, []) := by
  have hlen := mkWav_length fmt ch sr br ba bps (36 + dl) dl payload
  have hscan := scanA fmt ch sr br ba bps dl payload hfmt16 hfmtne hch hsr hbr
    hba hbps hdl0 hdlm hp
  have hsd : soundData (44 + payload.length)
      (⟨44 + dl, 44,
        { format := fmt, sample_rate := sr, bits_per_sample := bps, channels := ch,
          byte_rate := br, block_align := ba, is_streamed := false, is_valid := true,
          data_length := dl, file_size := 0 }⟩ : ScanState) =
      some (44, payload.length) := by
    simp only [soundData, if_pos (show (0 : Nat) < 44 by omega)]
    simp only [Option.some.injEq, Prod.mk.injEq]
    refine ⟨trivial, ?_⟩
    push_cast
    omega
  simp only [wavDecoder_write, wavDecoder_begin, hlen, hscan, hsd]
  rw [if_pos hfmt1]
  simp only [if_true]

/-- The first write on a canonical PCM header buffer with no listener
attached: zero bytes reported and nothing forwarded, but `isValid` stays
`true`. -/
theorem decWrite_first_pcm_nolistener (ch sr br ba bps dl : Nat)
    (payload : List Nat)
    (hch : ch < 2 ^ 16) (hsr : sr < 2 ^ 32) (hbr : br < 2 ^ 32)
    (hba : ba < 2 ^ 16) (hbps : bps < 2 ^ 16)
    (hdl0 : 0 < dl) (hdlm : 36 + dl < 0x7fff0000)
    (hp : payload.length ≤ dl) :
    wavDecoder_write none wavDecoder_begin
        (mkWav 1 ch sr br ba bps (36 + dl) dl payload) =
      (0, ⟨false, true, true⟩, []) := by
  have hlen := mkWav_length 1 ch sr br ba bps (36 + dl) dl payload
  have hscan := scanA 1 ch sr br ba bps dl payload (by norm_num) (by norm_num)
    hch hsr hbr hba hbps hdl0 hdlm hp
  have hsd : soundData (44 + payload.length)
      (⟨44 + dl, 44,
        { format := 1, sample_rate := sr, bits_per_sample := bps, channels := ch,
          byte_rate := br, block_align := ba, is_streamed := false, is_valid := true,
          data_length := dl, file_size := 0 }⟩ : ScanState) =
      some (44, payload.length) := by
    simp only [soundData, if_pos (show (0 : Nat) < 44 by omega)]
    simp only [Option.some.injEq, Prod.mk.injEq]
    refine ⟨trivial, ?_⟩
    push_cast
    omega
  simp only [wavDecoder_write, wavDecoder_begin, hlen, hscan, hsd]
  rw [if_neg (show ¬ (1 : Nat) ≠ 1 by omega)]
  simp only [if_true]

/-! ## Claim C4 -/

/-- C4: for every decoder session whose first buffer is a canonical header
declaring a non-PCM format code, the first write reports zero bytes and
forwards nothing, and so does every subsequent write of the session, whatever
listener is attached: the rejection permanently disables forwarding. -/
theorem C4_nonpcm_rejection_is_permanent (listener : Option (AudioBaseInfo → Bool))
    (fmt ch sr br ba bps dl : Nat) (payload : List Nat) (bs : List (List Nat))
    (hfmt1 : fmt ≠ 1) (hfmt16 : fmt < 2 ^ 16) (hfmtne : fmt ≠ 0xfffe)
    (hch : ch < 2 ^ 16) (hsr : sr < 2 ^ 32) (hbr : br < 2 ^ 32)
    (hba : ba < 2 ^ 16) (hbps : bps < 2 ^ 16)
    (hdl0 : 0 < dl) (hdlm : 36 + dl < 0x7fff0000)
    (hp : payload.length ≤ dl) :
    (wavDecoder_write listener wavDecoder_begin
        (mkWav fmt ch sr br ba bps (36 + dl) dl payload)).1 = 0 ∧
    (wavDecoder_write listener wavDecoder_begin
        (mkWav fmt ch sr br ba bps (36 + dl) dl payload)).2.2 = [] ∧
    (wavDecoder_run listener
        (wavDecoder_write listener wavDecoder_begin
          (mkWav fmt ch sr br ba bps (36 + dl) dl payload)).2.1 bs).2.1 =
      bs.map (fun _ => 0) ∧
    (wavDecoder_run listener
        (wavDecoder_write listener wavDecoder_begin
          (mkWav fmt ch sr br ba bps (36 + dl) dl payload)).2.1 bs).2.2 = [] := by
  rw [decWrite_first_nonpcm listener fmt ch sr br ba bps dl payload hfmt1 hfmt16
    hfmtne hch hsr hbr hba hbps hdl0 hdlm hp]
  rw [wavDecoder_run_invalid listener ⟨false, false, true⟩ bs rfl rfl rfl]
  exact ⟨rfl, rfl, rfl, rfl⟩

/-- Witness for C4 at a concrete instance: IEEE-float format code 3, an
accepting listener, one payload byte, two subsequent buffers. -/
theorem C4_nonpcm_rejection_is_permanent_witness :
    ((3 : Nat) ≠ 1 ∧ (3 : Nat) < 2 ^ 16 ∧ (3 : Nat) ≠ 0xfffe ∧
      (1 : Nat) < 2 ^ 16 ∧ (8000 : Nat) < 2 ^ 32 ∧ (8000 : Nat) < 2 ^ 32 ∧
      (1 : Nat) < 2 ^ 16 ∧ (8 : Nat) < 2 ^ 16 ∧ (0 : Nat) < 1 ∧
      36 + 1 < 0x7fff0000 ∧ ([0] : List Nat).length ≤ 1) ∧
    ((wavDecoder_write (some (fun _ => true)) wavDecoder_begin
        (mkWav 3 1 8000 8000 1 8 (36 + 1) 1 [0])).1 = 0 ∧
    (wavDecoder_write (some (fun _ => true)) wavDecoder_begin
        (mkWav 3 1 8000 8000 1 8 (36 + 1) 1 [0])).2.2 = [] ∧
    (wavDecoder_run (some (fun _ => true))
        (wavDecoder_write (some (fun _ => true)) wavDecoder_begin
          (mkWav 3 1 8000 8000 1 8 (36 + 1) 1 [0])).2.1 [[1, 2], [3]]).2.1 =
      ([[1, 2], [3]] : List (List Nat)).map (fun _ => 0) ∧
    (wavDecoder_run (some (fun _ => true))
        (wavDecoder_write (some (fun _ => true)) wavDecoder_begin
          (mkWav 3 1 8000 8000 1 8 (36 + 1) 1 [0])).2.1 [[1, 2], [3]]).2.2 = []) :=
  ⟨⟨by norm_num, by norm_num, by norm_num, by norm_num, by norm_num, by norm_num,
    by norm_num, by norm_num, by norm_num, by norm_num, by norm_num⟩,
   C4_nonpcm_rejection_is_permanent (some (fun _ => true)) 3 1 8000 8000 1 8 1 [0]
    [[1, 2], [3]] (by norm_num) (by norm_num) (by norm_num) (by norm_num)
    (by norm_num) (by norm_num) (by norm_num) (by norm_num) (by norm_num)
    (by norm_num) (by norm_num)⟩

/-! ## Claim C5 -/

/-- The claimed behaviour is refuted on a concrete session: with no listener
attached and a valid PCM header in the first buffer, the second write call
returns its input length 3, not 0 (and forwards the bytes verbatim). -/
theorem C5_claim_counterexample :
    (wavDecoder_write none
        (wavDecoder_write none wavDecoder_begin
          (mkWav 1 1 8000 8000 1 8 (36 + 1) 1 [0])).2.1 [1, 2, 3]).1 = 3 ∧
    ¬ (wavDecoder_write none
        (wavDecoder_write none wavDecoder_begin
          (mkWav 1 1 8000 8000 1 8 (36 + 1) 1 [0])).2.1 [1, 2, 3]).1 = 0 := by
  refine ⟨?_, ?_⟩
  · rw [decWrite_first_pcm_nolistener 1 8000 8000 1 8 1 [0] (by norm_num)
      (by norm_num) (by norm_num) (by norm_num) (by norm_num) (by norm_num)
      (by norm_num) (by norm_num)]
    rfl
  · rw [decWrite_first_pcm_nolistener 1 8000 8000 1 8 1 [0] (by norm_num)
      (by norm_num) (by norm_num) (by norm_num) (by norm_num) (by norm_num)
      (by norm_num) (by norm_num)]
    decide

/-- C5 (amended): with no listener attached the header-bearing first write
does report 0 and forwards nothing — but the session stays valid, and every
subsequent write forwards its buffer verbatim, returning its full length. -/
theorem C5_no_listener_first_write_only (ch sr br ba bps dl : Nat)
    (payload : List Nat) (bs : List (List Nat))
    (hch : ch < 2 ^ 16) (hsr : sr < 2 ^ 32) (hbr : br < 2 ^ 32)
    (hba : ba < 2 ^ 16) (hbps : bps < 2 ^ 16)
    (hdl0 : 0 < dl) (hdlm : 36 + dl < 0x7fff0000)
    (hp : payload.length ≤ dl) :
    (wavDecoder_write none wavDecoder_begin
        (mkWav 1 ch sr br ba bps (36 + dl) dl payload)).1 = 0 ∧
    (wavDecoder_write none wavDecoder_begin
        (mkWav 1 ch sr br ba bps (36 + dl) dl payload)).2.2 = [] ∧
    (wavDecoder_write none wavDecoder_begin
        (mkWav 1 ch sr br ba bps (36 + dl) dl payload)).2.1.isValid = true ∧
    (wavDecoder_run none
        (wavDecoder_write none wavDecoder_begin
          (mkWav 1 ch sr br ba bps (36 + dl) dl payload)).2.1 bs).2.1 =
      bs.map List.length ∧
    (wavDecoder_run none
        (wavDecoder_write none wavDecoder_begin
          (mkWav 1 ch sr br ba bps (36 + dl) dl payload)).2.1 bs).2.2 =
      bs.flatten := by
  rw [decWrite_first_pcm_nolistener ch sr br ba bps dl payload hch hsr hbr hba
    hbps hdl0 hdlm hp]
  rw [wavDecoder_run_valid none ⟨false, true, true⟩ bs rfl rfl rfl]
  exact ⟨rfl, rfl, rfl, rfl, rfl⟩

/-- Witness for the amended C5 at a concrete instance. -/
theorem C5_no_listener_first_write_only_witness :
    ((1 : Nat) < 2 ^ 16 ∧ (8000 : Nat) < 2 ^ 32 ∧ (8000 : Nat) < 2 ^ 32 ∧
      (1 : Nat) < 2 ^ 16 ∧ (8 : Nat) < 2 ^ 16 ∧ (0 : Nat) < 1 ∧
      36 + 1 < 0x7fff0000 ∧ ([0] : List Nat).length ≤ 1) ∧
    ((wavDecoder_write none wavDecoder_begin
        (mkWav 1 1 8000 8000 1 8 (36 + 1) 1 [0])).1 = 0 ∧
    (wavDecoder_write none wavDecoder_begin
        (mkWav 1 1 8000 8000 1 8 (36 + 1) 1 [0])).2.2 = [] ∧
    (wavDecoder_write none wavDecoder_begin
        (mkWav 1 1 8000 8000 1 8 (36 + 1) 1 [0])).2.1.isValid = true ∧
    (wavDecoder_run none
        (wavDecoder_write none wavDecoder_begin
          (mkWav 1 1 8000 8000 1 8 (36 + 1) 1 [0])).2.1 [[1, 2], [3]]).2.1 =
      ([[1, 2], [3]] : List (List Nat)).map List.length ∧
    (wavDecoder_run none
        (wavDecoder_write none wavDecoder_begin
          (mkWav 1 1 8000 8000 1 8 (36 + 1) 1 [0])).2.1 [[1, 2], [3]]).2.2 =
      ([[1, 2], [3]] : List (List Nat)).flatten) :=
  ⟨⟨by norm_num, by norm_num, by norm_num, by norm_num, by norm_num, by norm_num,
    by norm_num, by norm_num⟩,
   C5_no_listener_first_write_only 1 8000 8000 1 8 1 [0] [[1, 2], [3]]
    (by norm_num) (by norm_num) (by norm_num) (by norm_num) (by norm_num)
    (by norm_num) (by norm_num) (by norm_num)⟩


/-! ## Sample converters (`AudioTools/Converter.h`)

Samples are `Int` (the template parameter `T` instantiated at a signed
integer type, ignoring its finite width), C `float` arithmetic is exact `ℚ`,
and a stereo buffer `T (*src)[2]` of `size` frames is a `List (Int × Int)`. -/

/-- C `float`-to-integer conversion: truncation toward zero. -/
def ratTrunc (q : ℚ) : Int := if q < 0 then Int.ceil q else Int.floor q

/-- `ConverterScaler::convert`, one stereo frame. Channel 0 is assigned
`(src[j][0] + offset) * factor` and clipped; channel 1 is assigned
`src[j][1] + offset * factor`, and the lower branch of its clip tests
`src[j][0]` (the already-clipped channel 0), exactly as the source reads. -/
def scalerFrame (factor : ℚ) (offset maxValue : Int) (s : Int × Int) : Int × Int :=
  let a0 := ratTrunc (((s.1 + offset : Int) : ℚ) * factor)
  let b0 := if maxValue < a0 then maxValue else if a0 < -maxValue then -maxValue else a0
  let a1 := ratTrunc ((s.2 : ℚ) + (offset : ℚ) * factor)
  let b1 := if maxValue < a1 then maxValue else if b0 < -maxValue then -maxValue else a1
  (b0, b1)

/-- `ConverterScaler::convert` over the whole buffer. -/
def converterScaler_convert (factor : ℚ) (offset maxValue : Int)
    (src : List (Int × Int)) : List (Int × Int) :=
  src.map (scalerFrame factor offset maxValue)

/-- The per-frame rule the specification claims for `ConverterScaler`:
`clip((s + offset) * factor, ±maxValue)` on each channel independently. -/
def scalerFrameClaimed (factor : ℚ) (offset maxValue : Int) (s : Int × Int) : Int × Int :=
  (if maxValue < ratTrunc (((s.1 + offset : Int) : ℚ) * factor) then maxValue
   else if ratTrunc (((s.1 + offset : Int) : ℚ) * factor) < -maxValue then -maxValue
   else ratTrunc (((s.1 + offset : Int) : ℚ) * factor),
   if maxValue < ratTrunc (((s.2 + offset : Int) : ℚ) * factor) then maxValue
   else if ratTrunc (((s.2 + offset : Int) : ℚ) * factor) < -maxValue then -maxValue
   else ratTrunc (((s.2 + offset : Int) : ℚ) * factor))

/-- The claimed scaler over the whole buffer. -/
def converterScaler_claimed (factor : ℚ) (offset maxValue : Int)
    (src : List (Int × Int)) : List (Int × Int) :=
  src.map (scalerFrameClaimed factor offset maxValue)

/-! ## Claim C6 -/

/-- C6 (code bug): the right channel is assigned `s + offset * factor`, not
the claimed `(s + offset) * factor`: with factor 0, offset 0 and maxValue 100
the frame `(5, 7)` becomes `(0, 7)` — the right channel is not muted — while
the claimed rule yields `(0, 0)`. -/
theorem C6_scaler_right_channel_formula :
    converterScaler_convert 0 0 100 [(5, 7)] = [(0, 7)] ∧
    converterScaler_claimed 0 0 100 [(5, 7)] = [(0, 0)] ∧
    converterScaler_convert 0 0 100 [(5, 7)] ≠ converterScaler_claimed 0 0 100 [(5, 7)] := by
  have h1 : converterScaler_convert 0 0 100 [(5, 7)] = [(0, 7)] := by
    simp only [converterScaler_convert, scalerFrame, ratTrunc, List.map_cons, List.map_nil]
    norm_num
  have h2 : converterScaler_claimed 0 0 100 [(5, 7)] = [(0, 0)] := by
    simp only [converterScaler_claimed, scalerFrameClaimed, ratTrunc, List.map_cons, List.map_nil]
    norm_num
  refine ⟨h1, h2, ?_⟩
  rw [h1, h2]
  decide

/-! ## ConverterAutoCenter -/

/-- Mutable state of `ConverterAutoCenter`: `offset` (`T`), the `left`/`right`
float accumulators and the `is_setup` flag. -/
structure CenterState where
  offset : Int
  left : ℚ
  right : ℚ
  is_setup : Bool
  deriving Repr, DecidableEq

/-- A fresh `ConverterAutoCenter`: only `is_setup = false` is initialised in
the source; the `offset`, `left` and `right` members carry no initialiser, so
the zero-initialised object is modelled. -/
def centerInit : CenterState := ⟨0, 0, 0, false⟩

/-- `ConverterAutoCenter::setup`: accumulate both channels into the float
members, divide by `size`, then adopt the left mean as offset if positive,
else the right mean if positive (one-shot: skipped once `is_setup`). -/
def centerSetup (st : CenterState) (src : List (Int × Int)) : CenterState :=
  if st.is_setup then st else
    let l := (st.left + ((src.map (fun s => ((s.1 : Int) : ℚ))).sum)) / (src.length : ℚ)
    let r := (st.right + ((src.map (fun s => ((s.2 : Int) : ℚ))).sum)) / (src.length : ℚ)
    if 0 < l then { offset := ratTrunc l, left := l, right := r, is_setup := true }
    else if 0 < r then { offset := ratTrunc r, left := l, right := r, is_setup := true }
    else { st with left := l, right := r }

/-- `ConverterAutoCenter::convert`: run `setup`, then subtract the adopted
offset from both channels of every frame if calibrated. -/
def converterAutoCenter_convert (st : CenterState) (src : List (Int × Int)) :
    CenterState × List (Int × Int) :=
  let st2 := centerSetup st src
  if st2.is_setup then
    (st2, src.map (fun s => (s.1 - st2.offset, s.2 - st2.offset)))
  else (st2, src)

/-- Once calibrated, `convert` never touches the state again and subtracts
the stored offset from every sample of both channels. -/
theorem converterAutoCenter_convert_setup (st : CenterState) (b : List (Int × Int))
    (h : st.is_setup = true) :
    converterAutoCenter_convert st b =
      (st, b.map (fun s => (s.1 - st.offset, s.2 - st.offset))) := by
  have hs : centerSetup st b = st := by rw [centerSetup, if_pos h]
  simp only [converterAutoCenter_convert, hs]
  rw [if_pos h]

/-! ## Claim C7 -/

/-- C7: on its first invocation the converter computes the mean of each
channel over the whole buffer; if either mean is positive it adopts one as a
fixed offset (the left mean taking priority), subtracts it from every sample
of both channels of that call, and on every subsequent call subtracts the
same offset without recomputing anything. -/
theorem C7_autocenter_one_shot_calibration (src b : List (Int × Int))
    (hlen : 0 < src.length)
    (hpos : 0 < ((src.map (fun s => ((s.1 : Int) : ℚ))).sum) / (src.length : ℚ) ∨
            0 < ((src.map (fun s => ((s.2 : Int) : ℚ))).sum) / (src.length : ℚ)) :
    (converterAutoCenter_convert centerInit src).1.is_setup = true ∧
    (converterAutoCenter_convert centerInit src).1.offset =
      (if 0 < ((src.map (fun s => ((s.1 : Int) : ℚ))).sum) / (src.length : ℚ) then
        ratTrunc (((src.map (fun s => ((s.1 : Int) : ℚ))).sum) / (src.length : ℚ))
      else
        ratTrunc (((src.map (fun s => ((s.2 : Int) : ℚ))).sum) / (src.length : ℚ))) ∧
    (converterAutoCenter_convert centerInit src).2 =
      src.map (fun s => (s.1 - (converterAutoCenter_convert centerInit src).1.offset,
                         s.2 - (converterAutoCenter_convert centerInit src).1.offset)) ∧
    converterAutoCenter_convert (converterAutoCenter_convert centerInit src).1 b =
      ((converterAutoCenter_convert centerInit src).1,
        b.map (fun s => (s.1 - (converterAutoCenter_convert centerInit src).1.offset,
                         s.2 - (converterAutoCenter_convert centerInit src).1.offset))) := by
  by_cases hL : 0 < ((src.map (fun s => ((s.1 : Int) : ℚ))).sum) / (src.length : ℚ)
  · have hs : centerSetup centerInit src =
        ⟨ratTrunc (((src.map (fun s => ((s.1 : Int) : ℚ))).sum) / (src.length : ℚ)),
         ((src.map (fun s => ((s.1 : Int) : ℚ))).sum) / (src.length : ℚ),
         ((src.map (fun s => ((s.2 : Int) : ℚ))).sum) / (src.length : ℚ), true⟩ := by
      rw [centerSetup, if_neg (by decide)]
      simp only [centerInit, zero_add]
      rw [if_pos hL]
    have hc1 : converterAutoCenter_convert centerInit src =
        (⟨ratTrunc (((src.map (fun s => ((s.1 : Int) : ℚ))).sum) / (src.length : ℚ)),
          ((src.map (fun s => ((s.1 : Int) : ℚ))).sum) / (src.length : ℚ),
          ((src.map (fun s => ((s.2 : Int) : ℚ))).sum) / (src.length : ℚ), true⟩,
         src.map (fun s =>
           (s.1 - ratTrunc (((src.map (fun s => ((s.1 : Int) : ℚ))).sum) / (src.length : ℚ)),
            s.2 - ratTrunc (((src.map (fun s => ((s.1 : Int) : ℚ))).sum) / (src.length : ℚ))))) := by
      simp only [converterAutoCenter_convert, hs]
      simp only [if_true]
    rw [hc1, if_pos hL]
    refine ⟨rfl, rfl, rfl, ?_⟩
    exact converterAutoCenter_convert_setup _ b rfl
  · have hR : 0 < ((src.map (fun s => ((s.2 : Int) : ℚ))).sum) / (src.length : ℚ) :=
      hpos.resolve_left hL
    have hs : centerSetup centerInit src =
        ⟨ratTrunc (((src.map (fun s => ((s.2 : Int) : ℚ))).sum) / (src.length : ℚ)),
         ((src.map (fun s => ((s.1 : Int) : ℚ))).sum) / (src.length : ℚ),
         ((src.map (fun s => ((s.2 : Int) : ℚ))).sum) / (src.length : ℚ), true⟩ := by
      rw [centerSetup, if_neg (by decide)]
      simp only [centerInit, zero_add]
      rw [if_neg hL, if_pos hR]
    have hc1 : converterAutoCenter_convert centerInit src =
        (⟨ratTrunc (((src.map (fun s => ((s.2 : Int) : ℚ))).sum) / (src.length : ℚ)),
          ((src.map (fun s => ((s.1 : Int) : ℚ))).sum) / (src.length : ℚ),
          ((src.map (fun s => ((s.2 : Int) : ℚ))).sum) / (src.length : ℚ), true⟩,
         src.map (fun s =>
           (s.1 - ratTrunc (((src.map (fun s => ((s.2 : Int) : ℚ))).sum) / (src.length : ℚ)),
            s.2 - ratTrunc (((src.map (fun s => ((s.2 : Int) : ℚ))).sum) / (src.length : ℚ))))) := by
      simp only [converterAutoCenter_convert, hs]
      simp only [if_true]
    rw [hc1, if_neg hL]
    refine ⟨rfl, rfl, rfl, ?_⟩
    exact converterAutoCenter_convert_setup _ b rfl

/-- Witness for C7 at a concrete instance: frames `(4, 0)` and `(2, 0)` give
the left mean `3`, adopted and subtracted on this and the next call. -/
theorem C7_autocenter_one_shot_calibration_witness :
    ((0 : Nat) < ([( (4 : Int), (0 : Int)), (2, 0)] : List (Int × Int)).length ∧
      (0 < ((([( (4 : Int), (0 : Int)), (2, 0)] : List (Int × Int)).map
          (fun s => ((s.1 : Int) : ℚ))).sum) /
          ((([( (4 : Int), (0 : Int)), (2, 0)] : List (Int × Int)).length : Nat) : ℚ) ∨
       0 < ((([( (4 : Int), (0 : Int)), (2, 0)] : List (Int × Int)).map
          (fun s => ((s.2 : Int) : ℚ))).sum) /
          ((([( (4 : Int), (0 : Int)), (2, 0)] : List (Int × Int)).length : Nat) : ℚ))) ∧
    ((converterAutoCenter_convert centerInit [( (4 : Int), (0 : Int)), (2, 0)]).1.is_setup = true ∧
     (converterAutoCenter_convert centerInit [( (4 : Int), (0 : Int)), (2, 0)]).1.offset =
       (if 0 < ((([( (4 : Int), (0 : Int)), (2, 0)] : List (Int × Int)).map
            (fun s => ((s.1 : Int) : ℚ))).sum) /
            ((([( (4 : Int), (0 : Int)), (2, 0)] : List (Int × Int)).length : Nat) : ℚ) then
         ratTrunc (((([( (4 : Int), (0 : Int)), (2, 0)] : List (Int × Int)).map
            (fun s => ((s.1 : Int) : ℚ))).sum) /
            ((([( (4 : Int), (0 : Int)), (2, 0)] : List (Int × Int)).length : Nat) : ℚ))
       else
         ratTrunc (((([( (4 : Int), (0 : Int)), (2, 0)] : List (Int × Int)).map
            (fun s => ((s.2 : Int) : ℚ))).sum) /
            ((([( (4 : Int), (0 : Int)), (2, 0)] : List (Int × Int)).length : Nat) : ℚ))) ∧
     (converterAutoCenter_convert centerInit [( (4 : Int), (0 : Int)), (2, 0)]).2 =
       ([( (4 : Int), (0 : Int)), (2, 0)] : List (Int × Int)).map (fun s =>
         (s.1 - (converterAutoCenter_convert centerInit [( (4 : Int), (0 : Int)), (2, 0)]).1.offset,
          s.2 - (converterAutoCenter_convert centerInit [( (4 : Int), (0 : Int)), (2, 0)]).1.offset)) ∧
     converterAutoCenter_convert
         (converterAutoCenter_convert centerInit [( (4 : Int), (0 : Int)), (2, 0)]).1 [(10, 20)] =
       ((converterAutoCenter_convert centerInit [( (4 : Int), (0 : Int)), (2, 0)]).1,
         ([( (10 : Int), (20 : Int))] : List (Int × Int)).map (fun s =>
           (s.1 - (converterAutoCenter_convert centerInit [( (4 : Int), (0 : Int)), (2, 0)]).1.offset,
            s.2 - (converterAutoCenter_convert centerInit [( (4 : Int), (0 : Int)), (2, 0)]).1.offset)))) :=
  ⟨⟨by norm_num, Or.inl (by norm_num)⟩,
   C7_autocenter_one_shot_calibration [( (4 : Int), (0 : Int)), (2, 0)] [(10, 20)]
     (by norm_num) (Or.inl (by norm_num))⟩

/-! ## ConverterSwitchLeftAndRight -/

/-- `ConverterSwitchLeftAndRight::convert`, one frame. The source assigns
`src[j][1] = src[j][0]` first, so the second statement
`src[j][0] = src[j][1]` reads the value just written. -/
def switchFrame (s : Int × Int) : Int × Int :=
  let r := s.1
  let l := r
  (l, r)

/-- `ConverterSwitchLeftAndRight::convert` over the whole buffer. -/
def converterSwitchLeftAndRight_convert (src : List (Int × Int)) : List (Int × Int) :=
  src.map switchFrame

/-- The exchange the specification claims: left and right swapped. -/
def switchFrameClaimed (s : Int × Int) : Int × Int := (s.2, s.1)

/-- The claimed swap over the whole buffer. -/
def converterSwitchLeftAndRight_claimed (src : List (Int × Int)) : List (Int × Int) :=
  src.map switchFrameClaimed

/-! ## Claim C8 -/

/-- C8 (code bug): the converter copies the original left sample into both
channels instead of exchanging them: frame `(1, 2)` becomes `(1, 1)`, not the
claimed `(2, 1)`. -/
theorem C8_switch_copies_left_into_both :
    converterSwitchLeftAndRight_convert [(1, 2)] = [(1, 1)] ∧
    converterSwitchLeftAndRight_claimed [(1, 2)] = [(2, 1)] ∧
    converterSwitchLeftAndRight_convert [(1, 2)] ≠
      converterSwitchLeftAndRight_claimed [(1, 2)] := by
  refine ⟨rfl, rfl, ?_⟩
  decide

/-! ## CallbackConverter -/

/-- The loop of `CallbackConverter::convert`, `for (int i = size; i > 0; i--)`:
the cell `target[i]` receives the converted `src[i]`. Buffers are total index
maps, making every read and written cell explicit (a C array subscripted out
of bounds still denotes a memory cell). -/
def callbackLoop {A B : Type} (f : A → B) (src : Nat → A × A) :
    Nat → (Nat → B × B) → Nat → B × B
  | 0, tgt => tgt
  | i + 1, tgt =>
    callbackLoop f src i (fun k =>
      if k = i + 1 then (f (src (i + 1)).1, f (src (i + 1)).2) else tgt k)

/-- `CallbackConverter::convert` (assuming `size < 2 ^ 31`, so the `size_t`
to `int` conversion of the loop head preserves the value). -/
def callbackConverter_convert {A B : Type} (f : A → B) (src : Nat → A × A)
    (target : Nat → B × B) (size : Nat) : Nat → B × B :=
  callbackLoop f src size target

/-- Closed form of the callback loop: cells `1` to `n` hold converted source
cells, everything else is untouched. -/
theorem callbackLoop_eval {A B : Type} (f : A → B) (src : Nat → A × A) :
    ∀ (n : Nat) (tgt : Nat → B × B) (i : Nat),
    callbackLoop f src n tgt i =
      if 1 ≤ i ∧ i ≤ n then (f (src i).1, f (src i).2) else tgt i := by
  intro n
  induction n with
  | zero =>
    intro tgt i
    rw [callbackLoop, if_neg (by omega)]
  | succ n ih =>
    intro tgt i
    rw [callbackLoop, ih]
    by_cases h1 : 1 ≤ i ∧ i ≤ n
    · rw [if_pos h1, if_pos (by omega)]
    · rw [if_neg h1]
      by_cases h2 : i = n + 1
      · subst h2
        rw [if_pos rfl, if_pos (by omega : 1 ≤ n + 1 ∧ n + 1 ≤ n + 1)]
      · rw [if_neg h2, if_neg (by omega)]

/-! ## Claim C10 -/

/-- C10: for every frame count `size > 0` (below `2 ^ 31`), the conversion
writes exactly the cells at indices `size` down to `1`: frame 0 of the target
is never written, and index `size` — one past the last valid frame of a
`size`-frame buffer — is both read from the source and written to the
target. -/
theorem C10_callback_converter_off_by_one {A B : Type} (f : A → B) (src : Nat → A × A)
    (target : Nat → B × B) (size : Nat) (h : 0 < size) (h31 : size < 2 ^ 31) :
    (∀ i, callbackConverter_convert f src target size i =
      if 1 ≤ i ∧ i ≤ size then (f (src i).1, f (src i).2) else target i) ∧
    callbackConverter_convert f src target size 0 = target 0 ∧
    callbackConverter_convert f src target size size =
      (f (src size).1, f (src size).2) := by
  have he := callbackLoop_eval f src size
  refine ⟨fun i => he target i, ?_, ?_⟩
  · rw [callbackConverter_convert, he target 0, if_neg (by omega)]
  · rw [callbackConverter_convert, he target size,
      if_pos (⟨by omega, le_refl size⟩ : 1 ≤ size ∧ size ≤ size)]

/-- Witness for C10 at a concrete instance: two frames, successor callback. -/
theorem C10_callback_converter_off_by_one_witness :
    ((0 : Nat) < 2 ∧ (2 : Nat) < 2 ^ 31) ∧
    ((∀ i, callbackConverter_convert Nat.succ (fun i => (i, i + 10)) (fun _ => (0, 0)) 2 i =
      if 1 ≤ i ∧ i ≤ 2 then (Nat.succ ((fun i => (i, i + 10)) i).1,
        Nat.succ ((fun i => (i, i + 10)) i).2) else (0, 0)) ∧
    callbackConverter_convert Nat.succ (fun i => (i, i + 10)) (fun _ => (0, 0)) 2 0 = (0, 0) ∧
    callbackConverter_convert Nat.succ (fun i => (i, i + 10)) (fun _ => (0, 0)) 2 2 =
      (Nat.succ (((fun i => (i, i + 10)) 2).1), Nat.succ (((fun i => (i, i + 10)) 2).2))) :=
  ⟨⟨by norm_num, by norm_num⟩,
   C10_callback_converter_off_by_one Nat.succ (fun i => (i, i + 10)) (fun _ => (0, 0)) 2
     (by norm_num) (by norm_num)⟩


/-! ## Claim C9: scanner safety primitives -/

/-- In range, `getChar` returns the byte at the cursor and advances. -/
theorem getChar_in_range (buf : List Nat) (len pos : Nat) (h : pos < len) :
    getChar buf len pos = ((buf.getD pos 0 : Int), pos + 1) := by
  rw [getChar, if_pos h]

/-- Out of range, `getChar` returns the sentinel `-1` and does not touch the
buffer or the cursor. -/
theorem getChar_out_of_range (buf : List Nat) (len pos : Nat) (h : len ≤ pos) :
    getChar buf len pos = (-1, pos) := by
  rw [getChar, if_neg (by omega)]

/-- `eof` is signalled exactly from offset `len - 1` on, one byte before the
true end of the buffer. -/
theorem eofP_iff (len pos : Nat) (h : 1 ≤ len) :
    eofP len pos = true ↔ len - 1 ≤ pos := by
  rw [eofP, if_neg (by omega)]
  simp

/-- `getChar` moves the cursor forward, and never past `len`. -/
theorem getChar_mono (buf : List Nat) (len pos : Nat) :
    pos ≤ (getChar buf len pos).2 ∧ (getChar buf len pos).2 ≤ max pos len := by
  rw [getChar]
  split
  · refine ⟨?_, ?_⟩ <;> simp <;> omega
  · refine ⟨?_, ?_⟩ <;> simp

/-- `read_tag` moves the cursor forward, and never past `len`. -/
theorem read_tag_mono (buf : List Nat) (len pos : Nat) :
    pos ≤ (read_tag buf len pos).2 ∧ (read_tag buf len pos).2 ≤ max pos len := by
  have g1 := getChar_mono buf len pos
  have g2 := getChar_mono buf len (getChar buf len pos).2
  have g3 := getChar_mono buf len (getChar buf len (getChar buf len pos).2).2
  have g4 := getChar_mono buf len
    (getChar buf len (getChar buf len (getChar buf len pos).2).2).2
  simp only [read_tag]
  omega

/-- `read_int32` moves the cursor forward, and never past `len`. -/
theorem read_int32_mono (buf : List Nat) (len pos : Nat) :
    pos ≤ (read_int32 buf len pos).2 ∧ (read_int32 buf len pos).2 ≤ max pos len := by
  have g1 := getChar_mono buf len pos
  have g2 := getChar_mono buf len (getChar buf len pos).2
  have g3 := getChar_mono buf len (getChar buf len (getChar buf len pos).2).2
  have g4 := getChar_mono buf len
    (getChar buf len (getChar buf len (getChar buf len pos).2).2).2
  simp only [read_int32]
  omega

/-- `read_int16` moves the cursor forward, and never past `len`. -/
theorem read_int16_mono (buf : List Nat) (len pos : Nat) :
    pos ≤ (read_int16 buf len pos).2 ∧ (read_int16 buf len pos).2 ≤ max pos len := by
  have g1 := getChar_mono buf len pos
  have g2 := getChar_mono buf len (getChar buf len pos).2
  simp only [read_int16]
  omega

/-- `skip` moves the cursor forward, and never past `len`. -/
theorem skipChars_mono (buf : List Nat) (len : Nat) :
    ∀ (n pos : Nat), pos ≤ skipChars buf len n pos ∧ skipChars buf len n pos ≤ max pos len := by
  intro n
  induction n with
  | zero =>
    intro pos
    rw [skipChars]
    exact ⟨le_refl pos, le_max_left pos len⟩
  | succ n ih =>
    intro pos
    have g := getChar_mono buf len pos
    have h2 := ih (getChar buf len pos).2
    rw [skipChars]
    omega

/-- The value of `read_int32` is a 32-bit quantity. -/
theorem read_int32_lt (buf : List Nat) (len pos : Nat) :
    (read_int32 buf len pos).1 < 2 ^ 32 := by
  simp only [read_int32, orStep32]
  exact Nat.mod_lt _ (by norm_num)

/-- Two buffers agreeing below `len` are indistinguishable to `getChar`:
the scanner never reads an index at or beyond `len`. -/
theorem getChar_congr (buf buf' : List Nat) (len : Nat)
    (h : ∀ k, k < len → buf.getD k 0 = buf'.getD k 0) (pos : Nat) :
    getChar buf len pos = getChar buf' len pos := by
  rw [getChar, getChar]
  by_cases hp : pos < len
  · rw [if_pos hp, if_pos hp, h pos hp]
  · rw [if_neg hp, if_neg hp]

/-- Buffer-independence of `read_tag` beyond index `len`. -/
theorem read_tag_congr (buf buf' : List Nat) (len : Nat)
    (h : ∀ k, k < len → buf.getD k 0 = buf'.getD k 0) (pos : Nat) :
    read_tag buf len pos = read_tag buf' len pos := by
  simp only [read_tag, getChar_congr buf buf' len h]

/-- Buffer-independence of `read_int32` beyond index `len`. -/
theorem read_int32_congr (buf buf' : List Nat) (len : Nat)
    (h : ∀ k, k < len → buf.getD k 0 = buf'.getD k 0) (pos : Nat) :
    read_int32 buf len pos = read_int32 buf' len pos := by
  simp only [read_int32, getChar_congr buf buf' len h]

/-- Buffer-independence of `read_int16` beyond index `len`. -/
theorem read_int16_congr (buf buf' : List Nat) (len : Nat)
    (h : ∀ k, k < len → buf.getD k 0 = buf'.getD k 0) (pos : Nat) :
    read_int16 buf len pos = read_int16 buf' len pos := by
  simp only [read_int16, getChar_congr buf buf' len h]

/-- Buffer-independence of `skip` beyond index `len`. -/
theorem skipChars_congr (buf buf' : List Nat) (len : Nat)
    (h : ∀ k, k < len → buf.getD k 0 = buf'.getD k 0) :
    ∀ (n pos : Nat), skipChars buf len n pos = skipChars buf' len n pos := by
  intro n
  induction n with
  | zero => intro pos; rw [skipChars, skipChars]
  | succ n ih =>
    intro pos
    rw [skipChars, skipChars, getChar_congr buf buf' len h, ih]

/-- Buffer-independence of the sub-chunk loop beyond index `len`. -/
theorem scanInner_congr (buf buf' : List Nat) (len : Nat)
    (h : ∀ k, k < len → buf.getD k 0 = buf'.getD k 0) :
    ∀ (length : Nat) (st : ScanState),
    scanInner buf len st length = scanInner buf' len st length := by
  intro length
  induction length using Nat.strong_induction_on with
  | _ length ih =>
    intro st
    by_cases h8 : length < 8
    · rw [scanInner_stop _ _ _ _ h8, scanInner_stop _ _ _ _ h8]
    · conv_lhs => rw [scanInner.eq_def]
      conv_rhs => rw [scanInner.eq_def]
      rw [dif_neg h8, dif_neg h8]
      simp only [read_tag_congr buf buf' len h, read_int32_congr buf buf' len h,
        read_int16_congr buf buf' len h, skip, skipChars_congr buf buf' len h]
      simp only [ih (length - 8 -
        (read_int32 buf' len (read_tag buf' len st.data_pos).2).1) (by omega)]

/-- Buffer-independence of the outer chunk loop beyond index `len`. -/
theorem scanOuter_congr (buf buf' : List Nat) (len : Nat)
    (h : ∀ k, k < len → buf.getD k 0 = buf'.getD k 0) :
    ∀ (fuel : Nat) (st : ScanState),
    scanOuter buf len fuel st = scanOuter buf' len fuel st := by
  intro fuel
  induction fuel with
  | zero => intro st; rw [scanOuter, scanOuter]
  | succ n ih =>
    intro st
    rw [scanOuter, scanOuter]
    simp only [read_tag_congr buf buf' len h, read_int32_congr buf buf' len h,
      scanInner_congr buf buf' len h, ih]

/-- Buffer-independence of `WAVHeader::begin` beyond index `len`: the scan
never reads a byte at an index at or beyond the declared length. -/
theorem wavHeader_begin_congr (buf buf' : List Nat) (len : Nat)
    (h : ∀ k, k < len → buf.getD k 0 = buf'.getD k 0) :
    wavHeader_begin buf len = wavHeader_begin buf' len := by
  rw [wavHeader_begin, wavHeader_begin, scanOuter_congr buf buf' len h]


/-! Small arithmetic steps, kept generic so each is a one-`max` fact. -/

theorem le_max_chain (a b M len : Nat) (h1 : a ≤ M) (h2 : b ≤ max a len)
    (h3 : len ≤ M) : b ≤ M := by omega

theorem wrap_step (sp M len L v : Nat) (h : sp ≤ M) (hlen : len ≤ M)
    (hw : M + L < 2 ^ 64) : max sp len + (L - 8 - v) < 2 ^ 64 := by omega

theorem sub_budget_bound (sp M len L v : Nat) (h : sp ≤ M) (hlen : len ≤ M) :
    max sp len + (L - 8 - v) ≤ M + L := by omega

theorem seek_no_wrap (p M L v : Nat) (hp : p ≤ M) (hv : v ≤ L - 8)
    (hw : M + L < 2 ^ 64) : p + v < 2 ^ 64 := by omega

theorem seek_sub_bound (p M len L v : Nat) (hp : p ≤ M) (hlen : len ≤ M)
    (hv : v ≤ L - 8) : max (p + v) len + (L - 8 - v) ≤ M + L := by omega

theorem seek_wrap_step (p M len L v : Nat) (hp : p ≤ M) (hlen : len ≤ M)
    (hv : v ≤ L - 8) (hw : M + L < 2 ^ 64) :
    max (p + v) len + (L - 8 - v) < 2 ^ 64 := by omega

theorem budget_lt (L v : Nat) (h : ¬ L < 8) : L - 8 - v < L := by omega

theorem exit_bound (p M L : Nat) (hp : p ≤ M) : p ≤ M + L := by omega

theorem sub_sub_le (L v : Nat) : L - 8 - v ≤ L :=
  le_trans (Nat.sub_le _ _) (Nat.sub_le _ _)

set_option maxHeartbeats 1000000 in
/-- Through the sub-chunk loop the cursor never decreases; it never exceeds
`max start len` by more than the `length` budget (seeks are capped by the
budget, reads stop at `len`), and the budget never grows. The hypothesis
keeps the `size_t` additions of `seek` from wrapping. -/
theorem scanInner_mono (buf : List Nat) (len : Nat) :
    ∀ (length : Nat) (st : ScanState),
    max st.data_pos len + length < 2 ^ 64 →
    st.data_pos ≤ (scanInner buf len st length).1.data_pos ∧
    (scanInner buf len st length).1.data_pos ≤ max st.data_pos len + length ∧
    (scanInner buf len st length).2.1 ≤ length := by
  intro length
  induction length using Nat.strong_induction_on with
  | _ length ih =>
    intro st hw
    by_cases h8 : length < 8
    · rw [scanInner_stop _ _ _ _ h8]
      exact ⟨le_refl _, exit_bound _ _ _ (le_max_left _ _), le_refl _⟩
    · rw [scanInner.eq_def, dif_neg h8]
      rcases e1 : read_tag buf len st.data_pos with ⟨t1, p1⟩
      have m1 : st.data_pos ≤ p1 ∧ p1 ≤ max st.data_pos len := by
        have hm := read_tag_mono buf len st.data_pos
        rw [e1] at hm
        exact hm
      have c1 : p1 ≤ max st.data_pos len := m1.2
      simp only [e1]
      by_cases he : eofP len p1 = true
      · rw [if_pos he]
        exact ⟨m1.1, exit_bound _ _ _ c1, le_refl _⟩
      · rw [if_neg he]
        rcases e2 : read_int32 buf len p1 with ⟨v2, p2⟩
        have m2 : p1 ≤ p2 ∧ p2 ≤ max p1 len := by
          have hm := read_int32_mono buf len p1
          rw [e2] at hm
          exact hm
        have c2 : p2 ≤ max st.data_pos len :=
          le_max_chain p1 p2 _ len c1 m2.2 (le_max_right _ _)
        have n2 : st.data_pos ≤ p2 := le_trans m1.1 m2.1
        simp only [e2]
        by_cases hsm : length - 8 < v2
        · rw [if_pos hsm]
          exact ⟨n2, exit_bound _ _ _ c2, Nat.sub_le _ _⟩
        · rw [if_neg hsm]
          have hv : v2 ≤ length - 8 := Nat.le_of_not_lt hsm
          by_cases hfmt : t1 = 0x666d7420
          · rw [if_pos hfmt]
            by_cases h16 : v2 < 16
            · rw [if_pos h16]
              exact ⟨n2, exit_bound _ _ _ c2, Nat.sub_le _ _⟩
            · rw [if_neg h16]
              rcases e3 : read_int16 buf len p2 with ⟨f1, q1⟩
              have m3 : p2 ≤ q1 ∧ q1 ≤ max p2 len := by
                have hm := read_int16_mono buf len p2
                rw [e3] at hm
                exact hm
              have c3 : q1 ≤ max st.data_pos len :=
                le_max_chain p2 q1 _ len c2 m3.2 (le_max_right _ _)
              simp only [e3]
              rcases e4 : read_int16 buf len q1 with ⟨c1v, q2⟩
              have m4 : q1 ≤ q2 ∧ q2 ≤ max q1 len := by
                have hm := read_int16_mono buf len q1
                rw [e4] at hm
                exact hm
              have c4 : q2 ≤ max st.data_pos len :=
                le_max_chain q1 q2 _ len c3 m4.2 (le_max_right _ _)
              simp only [e4]
              rcases e5 : read_int32 buf len q2 with ⟨s1, q3⟩
              have m5 : q2 ≤ q3 ∧ q3 ≤ max q2 len := by
                have hm := read_int32_mono buf len q2
                rw [e5] at hm
                exact hm
              have c5 : q3 ≤ max st.data_pos len :=
                le_max_chain q2 q3 _ len c4 m5.2 (le_max_right _ _)
              simp only [e5]
              rcases e6 : read_int32 buf len q3 with ⟨b1, q4⟩
              have m6 : q3 ≤ q4 ∧ q4 ≤ max q3 len := by
                have hm := read_int32_mono buf len q3
                rw [e6] at hm
                exact hm
              have c6 : q4 ≤ max st.data_pos len :=
                le_max_chain q3 q4 _ len c5 m6.2 (le_max_right _ _)
              simp only [e6]
              rcases e7 : read_int16 buf len q4 with ⟨a1, q5⟩
              have m7 : q4 ≤ q5 ∧ q5 ≤ max q4 len := by
                have hm := read_int16_mono buf len q4
                rw [e7] at hm
                exact hm
              have c7 : q5 ≤ max st.data_pos len :=
                le_max_chain q4 q5 _ len c6 m7.2 (le_max_right _ _)
              simp only [e7]
              rcases e8 : read_int16 buf len q5 with ⟨g1, q6⟩
              have m8 : q5 ≤ q6 ∧ q6 ≤ max q5 len := by
                have hm := read_int16_mono buf len q5
                rw [e8] at hm
                exact hm
              have c8 : q6 ≤ max st.data_pos len :=
                le_max_chain q5 q6 _ len c7 m8.2 (le_max_right _ _)
              have n8 : st.data_pos ≤ q6 :=
                le_trans n2 (le_trans m3.1 (le_trans m4.1
                  (le_trans m5.1 (le_trans m6.1 (le_trans m7.1 m8.1)))))
              simp only [e8]
              by_cases hext : f1 = 0xfffe
              · rw [if_pos hext]
                by_cases h28 : v2 < 28
                · rw [if_pos h28]
                  exact ⟨n8, exit_bound _ _ _ c8, Nat.sub_le _ _⟩
                · rw [if_neg h28]
                  have m9 := skipChars_mono buf len 8 q6
                  have c9 : skipChars buf len 8 q6 ≤ max st.data_pos len :=
                    le_max_chain q6 _ _ len c8 m9.2 (le_max_right _ _)
                  rcases e9 : read_int32 buf len (skipChars buf len 8 q6) with ⟨w1, q7⟩
                  have m10 : skipChars buf len 8 q6 ≤ q7 ∧
                      q7 ≤ max (skipChars buf len 8 q6) len := by
                    have hm := read_int32_mono buf len (skipChars buf len 8 q6)
                    rw [e9] at hm
                    exact hm
                  have c10 : q7 ≤ max st.data_pos len :=
                    le_max_chain _ q7 _ len c9 m10.2 (le_max_right _ _)
                  simp only [e9, skip]
                  have m11 := skipChars_mono buf len (intOfU32 (v2 - 28)).toNat q7
                  have c11 : skipChars buf len (intOfU32 (v2 - 28)).toNat q7 ≤
                      max st.data_pos len :=
                    le_max_chain q7 _ _ len c10 m11.2 (le_max_right _ _)
                  have n11 : st.data_pos ≤ skipChars buf len (intOfU32 (v2 - 28)).toNat q7 :=
                    le_trans n8 (le_trans m9.1 (le_trans m10.1 m11.1))
                  have hrec := ih (length - 8 - v2) (budget_lt length v2 h8)
                    ⟨skipChars buf len (intOfU32 (v2 - 28)).toNat q7, st.sound_pos,
                     { st.info with
                       format := w1, channels := c1v, sample_rate := s1, byte_rate := b1,
                       block_align := a1, bits_per_sample := g1, is_valid := true }⟩
                    (wrap_step _ _ _ length v2 c11 (le_max_right _ _) hw)
                  exact ⟨le_trans n11 hrec.1,
                    le_trans hrec.2.1 (sub_budget_bound _ _ _ length v2 c11 (le_max_right _ _)),
                    le_trans hrec.2.2 (sub_sub_le length v2)⟩
              · rw [if_neg hext]
                simp only [skip]
                have m11 := skipChars_mono buf len (intOfU32 (v2 - 16)).toNat q6
                have c11 : skipChars buf len (intOfU32 (v2 - 16)).toNat q6 ≤
                    max st.data_pos len :=
                  le_max_chain q6 _ _ len c8 m11.2 (le_max_right _ _)
                have n11 : st.data_pos ≤ skipChars buf len (intOfU32 (v2 - 16)).toNat q6 :=
                  le_trans n8 m11.1
                have hrec := ih (length - 8 - v2) (budget_lt length v2 h8)
                  ⟨skipChars buf len (intOfU32 (v2 - 16)).toNat q6, st.sound_pos,
                   { st.info with
                     format := f1, channels := c1v, sample_rate := s1, byte_rate := b1,
                     block_align := a1, bits_per_sample := g1, is_valid := true }⟩
                  (wrap_step _ _ _ length v2 c11 (le_max_right _ _) hw)
                exact ⟨le_trans n11 hrec.1,
                  le_trans hrec.2.1 (sub_budget_bound _ _ _ length v2 c11 (le_max_right _ _)),
                  le_trans hrec.2.2 (sub_sub_le length v2)⟩
          · rw [if_neg hfmt]
            by_cases hdat : t1 = 0x64617461
            · rw [if_pos hdat]
              by_cases hstr : v2 = 0 ∨ st.info.is_streamed = true
              · rw [if_pos hstr]
                exact ⟨n2, exit_bound _ _ _ c2, Nat.sub_le _ _⟩
              · rw [if_neg hstr]
                have hseek : seekCur p2 v2 = p2 + v2 := by
                  rw [seekCur]
                  exact Nat.mod_eq_of_lt (seek_no_wrap p2 _ length v2 c2 hv hw)
                simp only [hseek]
                have hrec := ih (length - 8 - v2) (budget_lt length v2 h8)
                  ⟨p2 + v2, p2, { st.info with data_length := v2 }⟩
                  (seek_wrap_step p2 _ len length v2 c2 (le_max_right _ _) hv hw)
                exact ⟨le_trans (le_trans n2 (Nat.le_add_right p2 v2)) hrec.1,
                  le_trans hrec.2.1 (seek_sub_bound p2 _ len length v2 c2 (le_max_right _ _) hv),
                  le_trans hrec.2.2 (sub_sub_le length v2)⟩
            · rw [if_neg hdat]
              simp only [skip]
              have m11 := skipChars_mono buf len (intOfU32 v2).toNat p2
              have c11 : skipChars buf len (intOfU32 v2).toNat p2 ≤ max st.data_pos len :=
                le_max_chain p2 _ _ len c2 m11.2 (le_max_right _ _)
              have n11 : st.data_pos ≤ skipChars buf len (intOfU32 v2).toNat p2 :=
                le_trans n2 m11.1
              have hrec := ih (length - 8 - v2) (budget_lt length v2 h8)
                ⟨skipChars buf len (intOfU32 v2).toNat p2, st.sound_pos, st.info⟩
                (wrap_step _ _ _ length v2 c11 (le_max_right _ _) hw)
              exact ⟨le_trans n11 hrec.1,
                le_trans hrec.2.1 (sub_budget_bound _ _ _ length v2 c11 (le_max_right _ _)),
                le_trans hrec.2.2 (sub_sub_le length v2)⟩


theorem outer_seek_no_wrap (p M L0 n : Nat) (hp : p ≤ M) (hb : L0 ≤ 2 ^ 32 - 1)
    (hw : M + (n + 1) * 2 ^ 33 < 2 ^ 64) : p + L0 < 2 ^ 64 := by omega

theorem outer_rec_bound (p M len L0 n : Nat) (hp : p ≤ M) (hlen : len ≤ M)
    (hb : L0 ≤ 2 ^ 32 - 1) (hw : M + (n + 1) * 2 ^ 33 < 2 ^ 64) :
    max (p + L0) len + n * 2 ^ 33 < 2 ^ 64 := by omega

theorem inner_call_bound (p M len L0 n : Nat) (hp : p ≤ M) (hlen : len ≤ M)
    (hb : L0 ≤ 2 ^ 32 - 1) (hw : M + (n + 1) * 2 ^ 33 < 2 ^ 64) :
    max p len + (L0 - 4) < 2 ^ 64 := by omega

theorem st2_no_wrap (r p M len L0 rem n : Nat) (hr : r ≤ max p len + (L0 - 4))
    (hp : p ≤ M) (hlen : len ≤ M) (hrem : rem ≤ L0 - 4) (hb : L0 ≤ 2 ^ 32 - 1)
    (hw : M + (n + 1) * 2 ^ 33 < 2 ^ 64) : r + rem < 2 ^ 64 := by omega

theorem st2_rec_bound (r p M len L0 rem n : Nat) (hr : r ≤ max p len + (L0 - 4))
    (hp : p ≤ M) (hlen : len ≤ M) (hrem : rem ≤ L0 - 4) (hb : L0 ≤ 2 ^ 32 - 1)
    (hw : M + (n + 1) * 2 ^ 33 < 2 ^ 64) :
    max (r + rem) len + n * 2 ^ 33 < 2 ^ 64 := by omega

theorem st2_rec_bound0 (r p M len L0 n : Nat) (hr : r ≤ max p len + (L0 - 4))
    (hp : p ≤ M) (hlen : len ≤ M) (hb : L0 ≤ 2 ^ 32 - 1)
    (hw : M + (n + 1) * 2 ^ 33 < 2 ^ 64) :
    max r len + n * 2 ^ 33 < 2 ^ 64 := by omega

set_option maxHeartbeats 1000000 in
/-- Through the outer chunk loop the cursor never decreases. The bound
hypothesis gives every one of the `fuel` iterations head-room of `2 ^ 33`
bytes (one seek of less than `2 ^ 32` plus the bounded inner loop) below the
`size_t` wrap. -/
theorem scanOuter_mono (buf : List Nat) (len : Nat) :
    ∀ (fuel : Nat) (st : ScanState),
    max st.data_pos len + fuel * 2 ^ 33 < 2 ^ 64 →
    st.data_pos ≤ (scanOuter buf len fuel st).data_pos := by
  intro fuel
  induction fuel with
  | zero =>
    intro st _
    exact le_refl st.data_pos
  | succ n ih =>
    intro st hw
    rw [scanOuter]
    by_cases he : eofP len st.data_pos = true
    · rw [if_pos he]
    · rw [if_neg he]
      rcases e1 : read_tag buf len st.data_pos with ⟨t1, p1⟩
      have m1 : st.data_pos ≤ p1 ∧ p1 ≤ max st.data_pos len := by
        have hm := read_tag_mono buf len st.data_pos
        rw [e1] at hm
        exact hm
      have c1 : p1 ≤ max st.data_pos len := m1.2
      simp only [e1]
      by_cases he2 : eofP len p1 = true
      · rw [if_pos he2]
        exact m1.1
      · rw [if_neg he2]
        rcases e2 : read_int32 buf len p1 with ⟨v2, p2⟩
        have m2 : p1 ≤ p2 ∧ p2 ≤ max p1 len := by
          have hm := read_int32_mono buf len p1
          rw [e2] at hm
          exact hm
        have c2 : p2 ≤ max st.data_pos len :=
          le_max_chain p1 p2 _ len c1 m2.2 (le_max_right _ _)
        have n2 : st.data_pos ≤ p2 := le_trans m1.1 m2.1
        have hv2 : v2 < 2 ^ 32 := by
          have hm := read_int32_lt buf len p1
          rw [e2] at hm
          exact hm
        simp only [e2]
        generalize hS1 : (if v2 = 0 ∨ 0x7fff0000 ≤ v2 then
          { st with info := { st.info with is_streamed := true } } else st) = st1
        generalize hL0 : (if v2 = 0 ∨ 0x7fff0000 ≤ v2 then (2 ^ 32 - 1 : Nat) else v2) = L0
        have hb : L0 ≤ 2 ^ 32 - 1 := by
          rw [← hL0]
          split
          · exact le_refl _
          · omega
        by_cases hrif : t1 ≠ 0x52494646 ∨ L0 < 4
        · rw [if_pos hrif]
          have hseek : seekCur p2 L0 = p2 + L0 := by
            rw [seekCur]
            exact Nat.mod_eq_of_lt (outer_seek_no_wrap p2 _ L0 n c2 hb hw)
          simp only [hseek]
          have hrec := ih ⟨p2 + L0, st1.sound_pos, st1.info⟩
            (outer_rec_bound p2 _ len L0 n c2 (le_max_right _ _) hb hw)
          exact le_trans (le_trans n2 (Nat.le_add_right p2 L0)) hrec
        · rw [if_neg hrif]
          rcases e3 : read_tag buf len p2 with ⟨t3, p3⟩
          have m3 : p2 ≤ p3 ∧ p3 ≤ max p2 len := by
            have hm := read_tag_mono buf len p2
            rw [e3] at hm
            exact hm
          have c3 : p3 ≤ max st.data_pos len :=
            le_max_chain p2 p3 _ len c2 m3.2 (le_max_right _ _)
          have n3 : st.data_pos ≤ p3 := le_trans n2 m3.1
          simp only [e3]
          by_cases hwav : t3 ≠ 0x57415645
          · rw [if_pos hwav]
            have hseek : seekCur p3 (L0 - 4) = p3 + (L0 - 4) := by
              rw [seekCur]
              exact Nat.mod_eq_of_lt (outer_seek_no_wrap p3 _ (L0 - 4) n c3
                (le_trans (Nat.sub_le _ _) hb) hw)
            simp only [hseek]
            have hrec := ih ⟨p3 + (L0 - 4), st1.sound_pos, st1.info⟩
              (outer_rec_bound p3 _ len (L0 - 4) n c3 (le_max_right _ _)
                (le_trans (Nat.sub_le _ _) hb) hw)
            exact le_trans (le_trans n3 (Nat.le_add_right p3 (L0 - 4))) hrec
          · rw [if_neg hwav]
            have hin := scanInner_mono buf len (L0 - 4) ⟨p3, st1.sound_pos, st1.info⟩
              (inner_call_bound p3 _ len L0 n c3 (le_max_right _ _) hb hw)
            rcases er : scanInner buf len ⟨p3, st1.sound_pos, st1.info⟩ (L0 - 4)
              with ⟨rst, rrem, rb⟩
            have hin1 : p3 ≤ rst.data_pos := by
              have h := hin.1
              rw [er] at h
              exact h
            have hin2 : rst.data_pos ≤ max p3 len + (L0 - 4) := by
              have h := hin.2.1
              rw [er] at h
              exact h
            have hin3 : rrem ≤ L0 - 4 := by
              have h := hin.2.2
              rw [er] at h
              exact h
            simp only [er]
            by_cases hrb : rb = true
            · rw [if_pos hrb]
              exact le_trans n3 hin1
            · rw [if_neg hrb]
              by_cases h0 : 0 < rrem
              · rw [if_pos h0]
                have hseek : seekCur rst.data_pos rrem = rst.data_pos + rrem := by
                  rw [seekCur]
                  exact Nat.mod_eq_of_lt (st2_no_wrap rst.data_pos p3 _ len L0 rrem n
                    hin2 c3 (le_max_right _ _) hin3 hb hw)
                simp only [hseek]
                have hrec := ih ⟨rst.data_pos + rrem, rst.sound_pos, rst.info⟩
                  (st2_rec_bound rst.data_pos p3 _ len L0 rrem n hin2 c3
                    (le_max_right _ _) hin3 hb hw)
                exact le_trans (le_trans (le_trans n3 hin1) (Nat.le_add_right _ _)) hrec
              · rw [if_neg h0]
                have hrec := ih rst
                  (st2_rec_bound0 rst.data_pos p3 _ len L0 n hin2 c3
                    (le_max_right _ _) hb hw)
                exact le_trans (le_trans n3 hin1) hrec


/-- C9: within one `WAVHeader::begin` scan, (i) a read below `len` returns the
byte at the cursor and advances it; (ii) a read at or beyond `len` returns the
sentinel `-1` without touching buffer or cursor; (iii) the whole scan is
insensitive to buffer contents at indices at or beyond `len` — it never reads
past the declared length; (iv) `eof` is signalled exactly from offset
`len - 1` on, one byte before the true end; and (v) the cursor is
monotonically non-decreasing through the scan loop, under the size bound that
keeps the `size_t` cursor arithmetic from wrapping. -/
theorem C9_scanner_cursor_safety (buf buf' : List Nat) (len pos fuel : Nat)
    (st : ScanState) :
    (pos < len → getChar buf len pos = ((buf.getD pos 0 : Int), pos + 1)) ∧
    (len ≤ pos → getChar buf len pos = (-1, pos)) ∧
    ((∀ k, k < len → buf.getD k 0 = buf'.getD k 0) →
      wavHeader_begin buf len = wavHeader_begin buf' len) ∧
    (1 ≤ len → (eofP len pos = true ↔ len - 1 ≤ pos)) ∧
    (max st.data_pos len + fuel * 2 ^ 33 < 2 ^ 64 →
      st.data_pos ≤ (scanOuter buf len fuel st).data_pos) :=
  ⟨getChar_in_range buf len pos,
   getChar_out_of_range buf len pos,
   wavHeader_begin_congr buf buf' len,
   eofP_iff len pos,
   scanOuter_mono buf len fuel st⟩

/-- Witness for C9 at a concrete instance: a 2-byte buffer with junk beyond
the declared length, an out-of-range cursor, and a short fuelled scan. -/
theorem C9_scanner_cursor_safety_witness :
    ((5 : Nat) < 2 → getChar [82, 73] 2 5 = ((([82, 73] : List Nat).getD 5 0 : Int), 5 + 1)) ∧
    ((2 : Nat) ≤ 5 → getChar [82, 73] 2 5 = (-1, 5)) ∧
    ((∀ k, k < 2 → ([82, 73] : List Nat).getD k 0 = ([82, 73, 99] : List Nat).getD k 0) →
      wavHeader_begin [82, 73] 2 = wavHeader_begin [82, 73, 99] 2) ∧
    (1 ≤ 2 → (eofP 2 5 = true ↔ 2 - 1 ≤ 5)) ∧
    (max (⟨0, 0, {}⟩ : ScanState).data_pos 2 + 3 * 2 ^ 33 < 2 ^ 64 →
      (⟨0, 0, {}⟩ : ScanState).data_pos ≤
        (scanOuter [82, 73] 2 3 ⟨0, 0, {}⟩).data_pos) :=
  C9_scanner_cursor_safety [82, 73] [82, 73, 99] 2 5 3 ⟨0, 0, {}⟩

end AudioTools
